import Mathlib

/-!
# CATSurv: stopping rules, item selection and batch flows of the `Cat` orchestrator

A shallow embedding of `src/src/Cat.cpp` (the `Cat` orchestrator) and of
`src/catSurv/src/MLEEstimator.cpp` (the Newton-Raphson ability estimator).

Conventions of the embedding

* A `double` is a value of `Dbl`: not-a-number, one of the two infinities, or a
  finite value carried as a rational.  Only the comparison operators and
  `std::isnan` are given a meaning here (they are exact on doubles); the
  arithmetic of the platform (`-`, `/`, `std::abs`, `std::pow`) is a parameter
  (`FloatOps`).
* A C++ exception is an `Err`; a function that may throw returns `Except Err _`,
  and a member function that also mutates the `QuestionSet` returns the outcome
  together with the `QuestionSet` it leaves behind.
* The estimator and the selector are the polymorphic collaborators of `Cat`.
  They hold a reference to the `QuestionSet`, so each of their operations is a
  function of the current `QuestionSet`.
* `std::vector` is `List`, `push_back` appends at the end.
-/

namespace CatSurv

/-! ## Doubles -/

/-- A `double`, as far as comparisons can tell. -/
inductive Dbl where
  | nan
  | negInf
  | fin (q : ℚ)
  | posInf
deriving DecidableEq

namespace Dbl

/-- The test `std::isnan(x)`. -/
def isnan : Dbl → Bool
  | nan => true
  | _ => false

/-- The comparison `a < b` of two doubles; false as soon as one side is NaN. -/
def lt : Dbl → Dbl → Bool
  | nan, _ => false
  | _, nan => false
  | negInf, negInf => false
  | negInf, _ => true
  | fin _, negInf => false
  | fin a, fin b => decide (a < b)
  | fin _, posInf => true
  | posInf, _ => false

/-- The comparison `a <= b` of two doubles; false as soon as one side is NaN. -/
def le : Dbl → Dbl → Bool
  | nan, _ => false
  | _, nan => false
  | negInf, _ => true
  | fin _, negInf => false
  | fin a, fin b => decide (a ≤ b)
  | fin _, posInf => true
  | posInf, posInf => true
  | posInf, _ => false

/-- The comparison `a > b`. -/
def gt (a b : Dbl) : Bool := lt b a

/-- The comparison `a >= b`. -/
def ge (a b : Dbl) : Bool := le b a

/-- Conversion of a `size_t` to `double` (exact for every size a vector can have). -/
def ofNat (n : Nat) : Dbl := fin (n : ℚ)

end Dbl

/-- The floating-point arithmetic of the platform used by the code. -/
structure FloatOps where
  sub : Dbl → Dbl → Dbl
  div : Dbl → Dbl → Dbl
  abs : Dbl → Dbl
  pow : Dbl → Dbl → Dbl
  add : Dbl → Dbl → Dbl
  mul : Dbl → Dbl → Dbl

/-! ## Errors and vectors -/

/-- The exceptions that travel through the code. -/
inductive Err where
  | domain_error (what : String)
  | out_of_range (what : String)
  | invalid_argument (what : String)
  | index_out_of_bounds (what : String)
  | rcpp_exception (what : String)
  | undefined_behaviour (what : String)
deriving DecidableEq

/-- The value `NA_INTEGER` of R, the "unanswered" sentinel of the answers vector. -/
def NA_INTEGER : Int := -2147483648

/-- The checked read `v.at(i)` with an `int` index (a negative index converts to a
huge `size_t` and is out of range). -/
def vecAt {α : Type} (v : List α) (i : Int) : Except Err α :=
  if 0 ≤ i then
    match v.get? i.toNat with
    | some x => .ok x
    | none => .error (.out_of_range "vector::at")
  else .error (.out_of_range "vector::at")

/-- The checked write `v.at(i) = x`. -/
def vecSetAt {α : Type} (v : List α) (i : Int) (x : α) : Except Err (List α) :=
  if 0 ≤ i ∧ i.toNat < v.length then .ok (v.set i.toNat x)
  else .error (.out_of_range "vector::at")

/-- The erase-remove idiom `v.erase(std::remove(v.begin(), v.end(), x), v.end())`. -/
def eraseRemove (v : List Int) (x : Int) : List Int := v.filter (fun y => y != x)

/-- The call `v.pop_back()`. -/
def popBack {α : Type} (v : List α) : List α := v.dropLast

/-! ## Data model -/

/-- The item bank and one respondent's progress (the members `Cat.cpp` touches). -/
structure QuestionSet where
  question_names : List String
  difficulty : List (List Dbl)
  model : String
  answers : List Int
  applicable_rows : List Int
  nonapplicable_rows : List Int
  all_extreme : Bool
deriving DecidableEq

/-- The six optional thresholds; "unset" is NaN. -/
structure CheckRules where
  lengthThreshold : Dbl
  seThreshold : Dbl
  infoThreshold : Dbl
  gainThreshold : Dbl
  lengthOverride : Dbl
  gainOverride : Dbl
deriving DecidableEq

/-- What a selector hands back: the scoring table and the chosen item. -/
structure Selection where
  questions : List Int
  question_names : List String
  values : List Dbl
  name : String
  item : Int
deriving DecidableEq

/-- The estimator the `Cat` owns (the prior it is called with is fixed per `Cat`). -/
structure Estimator where
  estimateSE : QuestionSet → Except Err Dbl
  estimateTheta : QuestionSet → Except Err Dbl
  expectedPV : QuestionSet → Int → Except Err Dbl
  fisherInf : QuestionSet → Dbl → Int → Except Err Dbl
  obsInf : QuestionSet → Dbl → Int → Except Err Dbl

/-- The selector the `Cat` owns. -/
structure Selector where
  selectItem : QuestionSet → Except Err Selection

/-- The orchestrator. -/
structure Cat where
  questionSet : QuestionSet
  checkRules : CheckRules
  estimator : Estimator
  selector : Selector

/-! ## `Cat::checkStopRules` -/

/-- The range-for loops of `checkStopRules`: for each item compute a boolean and
`push_back` it; an exception of the computation leaves the loop. -/
def forItems (f : Int → Except Err Bool) : List Int → List Bool → Except Err (List Bool)
  | [], acc => .ok acc
  | item :: rest, acc =>
    match f item with
    | .error e => .error e
    | .ok b => forItems f rest (acc ++ [b])

/-- The member `Cat::estimateTheta`. -/
def Cat.estimateTheta (cat : Cat) : Except Err Dbl :=
  cat.estimator.estimateTheta cat.questionSet

/-- The member `Cat::estimateSE`. -/
def Cat.estimateSE (cat : Cat) : Except Err Dbl :=
  cat.estimator.estimateSE cat.questionSet

/-- The member `Cat::expectedPV`. -/
def Cat.expectedPV (cat : Cat) (item : Int) : Except Err Dbl :=
  cat.estimator.expectedPV cat.questionSet item

/-- The expression `std::abs(SE_est - std::pow(expectedPV(item), 0.5))`, once
`expectedPV(item)` has returned `epv`. -/
def gainOf (fl : FloatOps) (SE_est epv : Dbl) : Dbl :=
  fl.abs (fl.sub SE_est (fl.pow epv (.fin (1 / 2))))

/-- The block of the `lengthThreshold` rule. -/
def stepLengthThreshold (cat : Cat) (all_thresholds : List Bool) : List Bool :=
  if !cat.checkRules.lengthThreshold.isnan then
    all_thresholds ++
      [Dbl.ge (Dbl.ofNat cat.questionSet.applicable_rows.length) cat.checkRules.lengthThreshold]
  else all_thresholds

/-- The block of the `lengthOverride` rule. -/
def stepLengthOverride (cat : Cat) (all_overrides : List Bool) : List Bool :=
  if !cat.checkRules.lengthOverride.isnan then
    all_overrides ++
      [Dbl.lt (Dbl.ofNat cat.questionSet.applicable_rows.length) cat.checkRules.lengthOverride]
  else all_overrides

/-- The block of the `seThreshold` rule. -/
def stepSeThreshold (cat : Cat) (SE_est : Dbl) (all_thresholds : List Bool) : List Bool :=
  if !cat.checkRules.seThreshold.isnan then
    all_thresholds ++ [Dbl.lt SE_est cat.checkRules.seThreshold]
  else all_thresholds

/-- The block of the `gainThreshold` rule. -/
def stepGainThreshold (fl : FloatOps) (cat : Cat) (SE_est : Dbl) (all_thresholds : List Bool) :
    Except Err (List Bool) :=
  if !cat.checkRules.gainThreshold.isnan then
    match forItems (fun item =>
        match cat.expectedPV item with
        | .error e => .error e
        | .ok epv => .ok (Dbl.lt (gainOf fl SE_est epv) cat.checkRules.gainThreshold))
        cat.questionSet.nonapplicable_rows [] with
    | .error e => .error e
    | .ok all_gainThreshold => .ok (all_thresholds ++ [all_gainThreshold.all (fun v => v)])
  else .ok all_thresholds

/-- The block of the `gainOverride` rule. -/
def stepGainOverride (fl : FloatOps) (cat : Cat) (SE_est : Dbl) (all_overrides : List Bool) :
    Except Err (List Bool) :=
  if !cat.checkRules.gainOverride.isnan then
    match forItems (fun item =>
        match cat.expectedPV item with
        | .error e => .error e
        | .ok epv => .ok (Dbl.ge (gainOf fl SE_est epv) cat.checkRules.gainOverride))
        cat.questionSet.nonapplicable_rows [] with
    | .error e => .error e
    | .ok all_gainOverride => .ok (all_overrides ++ [all_gainOverride.all (fun v => v)])
  else .ok all_overrides

/-- The block of the `infoThreshold` rule. -/
def stepInfoThreshold (cat : Cat) (theta_est : Dbl) (all_thresholds : List Bool) :
    Except Err (List Bool) :=
  if !cat.checkRules.infoThreshold.isnan then
    match forItems (fun item =>
        match cat.estimator.fisherInf cat.questionSet theta_est item with
        | .error e => .error e
        | .ok info => .ok (Dbl.lt info cat.checkRules.infoThreshold))
        cat.questionSet.nonapplicable_rows [] with
    | .error e => .error e
    | .ok all_infoThreshold => .ok (all_thresholds ++ [all_infoThreshold.all (fun v => v)])
  else .ok all_thresholds

/-- The final gate of `checkStopRules`, which fills the one-element vector `stop`. -/
def stopGate (all_thresholds all_overrides : List Bool) : List Bool :=
  if all_thresholds.isEmpty && all_overrides.isEmpty then [false]
  else
    let any_thresholds_true := all_thresholds.any (fun v => v)
    let all_overrides_false := all_overrides.all (fun v => !v)
    [any_thresholds_true && all_overrides_false]

/-- The member `Cat::checkStopRules`. -/
def Cat.checkStopRules (fl : FloatOps) (cat : Cat) : Except Err (List Bool) :=
  match cat.estimator.estimateSE cat.questionSet with
  | .error e => .error e
  | .ok SE_est =>
  match cat.estimator.estimateTheta cat.questionSet with
  | .error e => .error e
  | .ok theta_est =>
  let all_thresholds := stepLengthThreshold cat []
  let all_overrides := stepLengthOverride cat []
  let all_thresholds := stepSeThreshold cat SE_est all_thresholds
  match stepGainThreshold fl cat SE_est all_thresholds with
  | .error e => .error e
  | .ok all_thresholds =>
  match stepGainOverride fl cat SE_est all_overrides with
  | .error e => .error e
  | .ok all_overrides =>
  match stepInfoThreshold cat theta_est all_thresholds with
  | .error e => .error e
  | .ok all_thresholds => .ok (stopGate all_thresholds all_overrides)

/-! ### The rules as the specification words them -/

/-- What the estimator reports in a state where all its calls succeed. -/
structure Readings where
  SE_est : Dbl
  theta_est : Dbl
  epv : Int → Dbl
  info : Int → Dbl

/-- The estimator's calls made by `checkStopRules` all succeed, with these readings. -/
def Cat.reads (cat : Cat) (r : Readings) : Prop :=
  cat.estimator.estimateSE cat.questionSet = .ok r.SE_est ∧
  cat.estimator.estimateTheta cat.questionSet = .ok r.theta_est ∧
  (∀ item ∈ cat.questionSet.nonapplicable_rows,
    cat.estimator.expectedPV cat.questionSet item = .ok (r.epv item)) ∧
  (∀ item ∈ cat.questionSet.nonapplicable_rows,
    cat.estimator.fisherInf cat.questionSet r.theta_est item = .ok (r.info item))

/-- Rule `lengthThreshold`: configured, and the number of answered items reaches it. -/
def lengthThresholdMet (cat : Cat) : Prop :=
  cat.checkRules.lengthThreshold.isnan = false ∧
  Dbl.ge (Dbl.ofNat cat.questionSet.applicable_rows.length) cat.checkRules.lengthThreshold = true

/-- Rule `seThreshold`: configured, and the standard error is below it. -/
def seThresholdMet (cat : Cat) (r : Readings) : Prop :=
  cat.checkRules.seThreshold.isnan = false ∧ Dbl.lt r.SE_est cat.checkRules.seThreshold = true

/-- Rule `gainThreshold`: configured, and the gain of every unanswered item is below it. -/
def gainThresholdMet (fl : FloatOps) (cat : Cat) (r : Readings) : Prop :=
  cat.checkRules.gainThreshold.isnan = false ∧
  ∀ item ∈ cat.questionSet.nonapplicable_rows,
    Dbl.lt (gainOf fl r.SE_est (r.epv item)) cat.checkRules.gainThreshold = true

/-- Rule `infoThreshold`: configured, and the information of every unanswered item is
below it. -/
def infoThresholdMet (cat : Cat) (r : Readings) : Prop :=
  cat.checkRules.infoThreshold.isnan = false ∧
  ∀ item ∈ cat.questionSet.nonapplicable_rows,
    Dbl.lt (r.info item) cat.checkRules.infoThreshold = true

/-- Override `lengthOverride`: configured, and fewer items are answered than it asks. -/
def lengthOverrideMet (cat : Cat) : Prop :=
  cat.checkRules.lengthOverride.isnan = false ∧
  Dbl.lt (Dbl.ofNat cat.questionSet.applicable_rows.length) cat.checkRules.lengthOverride = true

/-- Override `gainOverride`: configured, and the gain of every unanswered item reaches it. -/
def gainOverrideMet (fl : FloatOps) (cat : Cat) (r : Readings) : Prop :=
  cat.checkRules.gainOverride.isnan = false ∧
  ∀ item ∈ cat.questionSet.nonapplicable_rows,
    Dbl.ge (gainOf fl r.SE_est (r.epv item)) cat.checkRules.gainOverride = true

/-- At least one configured threshold rule evaluates to true. -/
def someThresholdMet (fl : FloatOps) (cat : Cat) (r : Readings) : Prop :=
  lengthThresholdMet cat ∨ seThresholdMet cat r ∨ gainThresholdMet fl cat r ∨
    infoThresholdMet cat r

/-- Some configured override rule evaluates to true. -/
def someOverrideMet (fl : FloatOps) (cat : Cat) (r : Readings) : Prop :=
  lengthOverrideMet cat ∨ gainOverrideMet fl cat r

/-- No threshold is configured. -/
def noThresholdConfigured (rules : CheckRules) : Prop :=
  rules.lengthThreshold.isnan = true ∧ rules.seThreshold.isnan = true ∧
  rules.infoThreshold.isnan = true ∧ rules.gainThreshold.isnan = true

/-! ## `Cat::selectItem` -/

/-- The data frame `estimates` built by `selectItem`: three named columns, the third
one named after the selection criterion. -/
structure Estimates where
  q_number : List Int
  q_name : List String
  value_name : String
  values : List Dbl
deriving DecidableEq

/-- The list returned by `selectItem`. -/
structure SelectItemResult where
  estimates : Estimates
  next_item : Int
deriving DecidableEq

/-- The error thrown by the guard of `selectItem`. -/
def selectItemGuardErr : Err :=
  .domain_error "selectItem should not be called if all items have been answered."

/-- The part of `selectItem` after the selector has answered: every question index is
shifted by one, and so is the chosen item. -/
def publishSelection (selection : Selection) : SelectItemResult :=
  { estimates :=
      { q_number := selection.questions.map (fun q => q + 1)
        q_name := selection.question_names
        value_name := selection.name
        values := selection.values }
    next_item := selection.item + 1 }

/-- The member `Cat::selectItem`. It does not write to the `QuestionSet`. -/
def Cat.selectItem (cat : Cat) : Except Err SelectItemResult :=
  if cat.questionSet.nonapplicable_rows.isEmpty then .error selectItemGuardErr
  else
    match cat.selector.selectItem cat.questionSet with
    | .error e => .error e
    | .ok selection => .ok (publishSelection selection)

/-! ## `Cat::lookAhead` -/

/-- The data frame `estimates` returned by `lookAhead`. -/
structure LookAheadResult where
  response_option : List Int
  next_item : List Int
deriving DecidableEq

/-- The error thrown by the guard of `lookAhead`. -/
def lookAheadGuardErr : Err :=
  .domain_error "lookAhead should not be called for an answered item."

/-- The test `(model == "ltm") | (model == "tpm")`. -/
def isBinaryModel (model : String) : Bool := (model == "ltm") || (model == "tpm")

/-- The response option written for loop counter `i`: `i - 1` for the binary models,
`i` otherwise. -/
def responseOption (model : String) (i : Nat) : Int :=
  if isBinaryModel model then ((i - 1 : Nat) : Int) else (i : Int)

/-- The body of the `for` loop of `lookAhead`, run for the loop counters listed; it
carries the `QuestionSet` and the two vectors `items` and `response_options`. -/
def lookAheadLoop (sel : Selector) (item : Int) :
    List Nat → QuestionSet → List Int → List Int →
      Except Err (List Int × List Int) × QuestionSet
  | [], qs, items, response_options => (.ok (items, response_options), qs)
  | i :: rest, qs, items, response_options =>
    match vecSetAt qs.answers item (responseOption qs.model i) with
    | .error e => (.error e, qs)
    | .ok answers =>
      let qs := { qs with answers := answers }
      match sel.selectItem qs with
      | .error e => (.error e, qs)
      | .ok selection =>
        match vecAt qs.answers item with
        | .error e => (.error e, qs)
        | .ok a => lookAheadLoop sel item rest qs (items ++ [selection.item + 1])
            (response_options ++ [a])

/-- The `QuestionSet` once `lookAhead` has taken `item` out of the unanswered
questions and said it has been answered. -/
def markAnswered (qs : QuestionSet) (item : Int) : QuestionSet :=
  { qs with
    nonapplicable_rows := eraseRemove qs.nonapplicable_rows item
    applicable_rows := qs.applicable_rows ++ [item] }

/-- The member `Cat::lookAhead`: the outcome, and the `Cat` it leaves behind. The loop
counter runs over `1 .. difficulty.at(item).size() + 1`; the bound is read before the
first iteration, where `difficulty.at(item)` may throw. -/
def Cat.lookAhead (cat : Cat) (item : Int) : Except Err LookAheadResult × Cat :=
  if cat.questionSet.applicable_rows.contains item then (.error lookAheadGuardErr, cat)
  else
    let qs1 := markAnswered cat.questionSet item
    match vecAt qs1.difficulty item with
    | .error e => (.error e, { cat with questionSet := qs1 })
    | .ok d =>
      match lookAheadLoop cat.selector item (List.range' 1 (d.length + 1)) qs1 [] [] with
      | (.error e, qs2) => (.error e, { cat with questionSet := qs2 })
      | (.ok (items, response_options), qs2) =>
        let qs3 := { qs2 with
          nonapplicable_rows := qs2.nonapplicable_rows ++ [item]
          applicable_rows := popBack qs2.applicable_rows }
        match vecSetAt qs3.answers item NA_INTEGER with
        | .error e => (.error e, { cat with questionSet := qs3 })
        | .ok answers =>
          (.ok { response_option := response_options, next_item := items },
            { cat with questionSet := { qs3 with answers := answers } })

/-! ## `Cat::estimateThetas` and `Cat::simulateAll` -/

/-- A table of responses: one column of integers per question. -/
structure DataFrame where
  nrow : Nat
  cols : List (List Int)
deriving DecidableEq

/-- The number of columns `responses.ncol()`. -/
def DataFrame.ncol (responses : DataFrame) : Nat := responses.cols.length

/-- The read `responses[item][row]` of `simulateAll`; an index outside the table is
an error. -/
def DataFrame.cell (responses : DataFrame) (item : Int) (row : Nat) : Except Err Int :=
  if 0 ≤ item then
    match responses.cols.get? item.toNat with
    | none => .error (.index_out_of_bounds "column")
    | some col =>
      match col.get? row with
      | none => .error (.index_out_of_bounds "row")
      | some v => .ok v
  else .error (.index_out_of_bounds "column")

/-- The three mutators of `QuestionSet` that `Cat.cpp` calls and that live outside
these files: `reset_answers(responses, row)`, `reset_answers(answers)` and
`reset_answer(item, value)`. -/
structure QuestionSetOps where
  reset_answers_row : DataFrame → Nat → QuestionSet → QuestionSet
  reset_answers : List Int → QuestionSet → QuestionSet
  reset_answer : Int → Int → QuestionSet → QuestionSet

/-- The error thrown by the guard of `estimateThetas`. -/
def estimateThetasGuardErr : Err :=
  .domain_error "number of questions doesnt match with catObj"

/-- The `for` loop of `estimateThetas` over the rows listed; `thetas[row] = ...` for
rows taken in increasing order fills the vector from the front. -/
def estimateThetasLoop (ops : QuestionSetOps) (responses : DataFrame) :
    List Nat → Cat → List Dbl → Except Err (List Dbl) × Cat
  | [], cat, thetas => (.ok thetas, cat)
  | row :: rest, cat, thetas =>
    let cat := { cat with questionSet := ops.reset_answers_row responses row cat.questionSet }
    match cat.estimateTheta with
    | .error e => (.error e, cat)
    | .ok theta => estimateThetasLoop ops responses rest cat (thetas ++ [theta])

/-- The member `Cat::estimateThetas`. -/
def Cat.estimateThetas (ops : QuestionSetOps) (cat : Cat) (responses : DataFrame) :
    Except Err (List Dbl) × Cat :=
  if responses.ncol != cat.questionSet.question_names.length then
    (.error estimateThetasGuardErr, cat)
  else estimateThetasLoop ops responses (List.range responses.nrow) cat []

/-- The error thrown by the guard of `simulateAll`. -/
def simulateAllGuardErr : Err :=
  .domain_error "Need to specify stopping rule(s) in Cat object."

/-- The condition of the guard of `simulateAll`. -/
def noStoppingRule (rules : CheckRules) : Bool :=
  rules.lengthThreshold.isnan && rules.seThreshold.isnan &&
    rules.infoThreshold.isnan && rules.gainThreshold.isnan

/-- The `while` loop of `simulateAll` for one row. The loop has no bound of its own in
the source; here it runs on fuel, and `none` says the fuel ran out. -/
def simulateWhile (fl : FloatOps) (ops : QuestionSetOps) (responses : DataFrame) (row : Nat) :
    Nat → Cat → Option (Except Err Unit × Cat)
  | 0, _ => none
  | fuel + 1, cat =>
    if cat.questionSet.nonapplicable_rows.isEmpty then some (.ok (), cat)
    else
      match cat.checkStopRules fl with
      | .error e => some (.error e, cat)
      | .ok [] => some (.error (.out_of_range "checkStopRules()[0]"), cat)
      | .ok (stop :: _) =>
        if stop then some (.ok (), cat)
        else
          match cat.selector.selectItem cat.questionSet with
          | .error e => some (.error e, cat)
          | .ok selection =>
            match responses.cell selection.item row with
            | .error e => some (.error e, cat)
            | .ok v =>
              simulateWhile fl ops responses row fuel
                { cat with questionSet := ops.reset_answer selection.item v cat.questionSet }

/-- One turn of the `for` loop of `simulateAll`: the `while` loop, the estimate, and
the reinstatement of the answers captured at entry. -/
def simulateRow (fl : FloatOps) (ops : QuestionSetOps) (responses : DataFrame)
    (answers : List Int) (fuel : Nat) (row : Nat) (cat : Cat) :
    Option (Except Err Dbl × Cat) :=
  match simulateWhile fl ops responses row fuel cat with
  | none => none
  | some (.error e, cat1) => some (.error e, cat1)
  | some (.ok (), cat1) =>
    match cat1.estimateTheta with
    | .error e => some (.error e, cat1)
    | .ok theta =>
      some (.ok theta, { cat1 with questionSet := ops.reset_answers answers cat1.questionSet })

/-- The `for` loop of `simulateAll` over the rows listed. -/
def simulateRows (fl : FloatOps) (ops : QuestionSetOps) (responses : DataFrame)
    (answers : List Int) (fuel : Nat) :
    List Nat → Cat → List Dbl → Option (Except Err (List Dbl) × Cat)
  | [], cat, thetas => some (.ok thetas, cat)
  | row :: rest, cat, thetas =>
    match simulateRow fl ops responses answers fuel row cat with
    | none => none
    | some (.error e, cat1) => some (.error e, cat1)
    | some (.ok theta, cat1) =>
      simulateRows fl ops responses answers fuel rest cat1 (thetas ++ [theta])

/-- The member `Cat::simulateAll`; `fuel` bounds each run of the `while` loop. -/
def Cat.simulateAll (fl : FloatOps) (ops : QuestionSetOps) (fuel : Nat) (cat : Cat)
    (responses : DataFrame) : Option (Except Err (List Dbl) × Cat) :=
  if noStoppingRule cat.checkRules then some (.error simulateAllGuardErr, cat)
  else
    simulateRows fl ops responses cat.questionSet.answers fuel (List.range responses.nrow) cat []

/-! ## `MLEEstimator::estimateTheta` -/

/-- What `MLEEstimator::estimateTheta` calls: the two derivatives of the
log-likelihood at a value of theta (with `use_prior = false`), and the bounded root
search `d1LL_root()`. -/
structure MLEEstimator where
  d1LL : Dbl → Except Err Dbl
  d2LL : Dbl → Except Err Dbl
  d1LL_root : Except Err Dbl

/-- The constant `max_iter`. -/
def max_iter : Nat := 200

/-- The constant `tolerance = 0.0000001`, the double nearest to one ten-millionth. -/
def tolerance : Dbl := .fin (944473296573929 / 9444732965739290427392)

/-- The `while` loop of `estimateTheta`, with `remaining = max_iter - iter`. The
quotient `d1LL(..) / d2LL(..)` is evaluated outside of the `try` block; of its two
operands `d1LL` is taken first. The `catch` clause takes `std::domain_error` only. -/
def newtonLoop (fl : FloatOps) (est : MLEEstimator) : Nat → Dbl → Dbl → Dbl → Except Err Dbl
  | 0, _, theta_hat_new, _ => .ok theta_hat_new
  | remaining + 1, theta_hat_old, theta_hat_new, difference =>
    if Dbl.gt difference tolerance then
      match est.d1LL theta_hat_old with
      | .error e => .error e
      | .ok d1 =>
      match est.d2LL theta_hat_old with
      | .error e => .error e
      | .ok d2 =>
      let theta_hat_new := fl.sub theta_hat_old (fl.div d1 d2)
      let difference := fl.abs (fl.sub theta_hat_new theta_hat_old)
      match est.d1LL theta_hat_new with
      | .error (.domain_error _) => est.d1LL_root
      | .error e => .error e
      | .ok _ =>
        let theta_hat_old := theta_hat_new
        if theta_hat_old.isnan then est.d1LL_root
        else newtonLoop fl est remaining theta_hat_old theta_hat_new difference
    else .ok theta_hat_new

/-- The member `MLEEstimator::estimateTheta`. -/
def MLEEstimator.estimateTheta (fl : FloatOps) (est : MLEEstimator) : Except Err Dbl :=
  let theta_hat_old : Dbl := .fin 0
  let theta_hat_new : Dbl := .fin 1
  let difference := fl.abs (fl.sub theta_hat_new theta_hat_old)
  newtonLoop fl est max_iter theta_hat_old theta_hat_new difference

/-- The vector `all_thresholds` at the gate, when the estimator's calls succeed. -/
def thresholdsOf (fl : FloatOps) (cat : Cat) (r : Readings) : List Bool :=
  (if !cat.checkRules.lengthThreshold.isnan then
    [Dbl.ge (Dbl.ofNat cat.questionSet.applicable_rows.length) cat.checkRules.lengthThreshold]
   else []) ++
  (if !cat.checkRules.seThreshold.isnan then [Dbl.lt r.SE_est cat.checkRules.seThreshold]
   else []) ++
  (if !cat.checkRules.gainThreshold.isnan then
    [cat.questionSet.nonapplicable_rows.all (fun item =>
      Dbl.lt (gainOf fl r.SE_est (r.epv item)) cat.checkRules.gainThreshold)]
   else []) ++
  (if !cat.checkRules.infoThreshold.isnan then
    [cat.questionSet.nonapplicable_rows.all (fun item =>
      Dbl.lt (r.info item) cat.checkRules.infoThreshold)]
   else [])

/-- The vector `all_overrides` at the gate, when the estimator's calls succeed. -/
def overridesOf (fl : FloatOps) (cat : Cat) (r : Readings) : List Bool :=
  (if !cat.checkRules.lengthOverride.isnan then
    [Dbl.lt (Dbl.ofNat cat.questionSet.applicable_rows.length) cat.checkRules.lengthOverride]
   else []) ++
  (if !cat.checkRules.gainOverride.isnan then
    [cat.questionSet.nonapplicable_rows.all (fun item =>
      Dbl.ge (gainOf fl r.SE_est (r.epv item)) cat.checkRules.gainOverride)]
   else [])

/-! ## Concrete inputs for the worked examples -/

/-- Floating-point operations for the worked examples: exact on finite operands,
NaN on the others; `pow` knows the exponents zero and one only. -/
def sampleOps : FloatOps where
  sub := fun a b =>
    match a, b with
    | .fin x, .fin y => .fin (x - y)
    | _, _ => .nan
  div := fun a b =>
    match a, b with
    | .fin x, .fin y => if y = 0 then .nan else .fin (x / y)
    | _, _ => .nan
  abs := fun a =>
    match a with
    | .fin x => .fin |x|
    | .nan => .nan
    | _ => .posInf
  pow := fun a b =>
    match a, b with
    | .fin x, .fin y => if y = 1 then .fin x else if y = 0 then .fin 1 else .nan
    | _, _ => .nan
  add := fun a b =>
    match a, b with
    | .fin x, .fin y => .fin (x + y)
    | _, _ => .nan
  mul := fun a b =>
    match a, b with
    | .fin x, .fin y => .fin (x * y)
    | _, _ => .nan

/-- An estimator that reports the same readings in every state. -/
def constEstimator (se theta epv info : Dbl) : Estimator where
  estimateSE := fun _ => .ok se
  estimateTheta := fun _ => .ok theta
  expectedPV := fun _ _ => .ok epv
  fisherInf := fun _ _ _ => .ok info
  obsInf := fun _ _ _ => .ok info

/-- The readings of `constEstimator`. -/
def constReadings (se theta epv info : Dbl) : Readings where
  SE_est := se
  theta_est := theta
  epv := fun _ => epv
  info := fun _ => info

/-- A selector that picks the first unanswered item and scores every unanswered item
with zero. -/
def firstSelector : Selector where
  selectItem := fun qs =>
    match qs.nonapplicable_rows with
    | [] => .error (.domain_error "no item left")
    | item :: _ =>
      .ok { questions := qs.nonapplicable_rows
            question_names := qs.nonapplicable_rows.map (fun _ => "q")
            values := qs.nonapplicable_rows.map (fun _ => .fin 0)
            name := "FIRST"
            item := item }

/-- A selector that always fails. -/
def failingSelector : Selector where
  selectItem := fun _ => .error (.domain_error "Theta value too extreme for numerical routines.")

/-- Six graded items with two thresholds each; the first five are answered. -/
def fiveOfSix : QuestionSet where
  question_names := ["q1", "q2", "q3", "q4", "q5", "q6"]
  difficulty := List.replicate 6 [.fin (-1), .fin 1]
  model := "grm"
  answers := [1, 2, 3, 1, 2, NA_INTEGER]
  applicable_rows := [0, 1, 2, 3, 4]
  nonapplicable_rows := [5]
  all_extreme := false

/-- Rules with every threshold and override unset. -/
def noRules : CheckRules where
  lengthThreshold := .nan
  seThreshold := .nan
  infoThreshold := .nan
  gainThreshold := .nan
  lengthOverride := .nan
  gainOverride := .nan

/-- Five answered items, `lengthThreshold = 5`, nothing else configured. -/
def lengthFiveCat : Cat where
  questionSet := fiveOfSix
  checkRules := { noRules with lengthThreshold := .fin 5 }
  estimator := constEstimator (.fin 2) (.fin 0) (.fin 1) (.fin 1)
  selector := firstSelector

/-- Five answered items, `lengthThreshold = 5` (met) and `seThreshold = 1` (not met by
a standard error of 2), no override. -/
def twoThresholdsCat : Cat where
  questionSet := fiveOfSix
  checkRules := { noRules with lengthThreshold := .fin 5, seThreshold := .fin 1 }
  estimator := constEstimator (.fin 2) (.fin 0) (.fin 1) (.fin 1)
  selector := firstSelector

/-- Three graded items with two thresholds each; the third is answered, the first two
are not. -/
def twoOpen : QuestionSet where
  question_names := ["q1", "q2", "q3"]
  difficulty := List.replicate 3 [.fin (-1), .fin 1]
  model := "grm"
  answers := [NA_INTEGER, NA_INTEGER, 2]
  applicable_rows := [2]
  nonapplicable_rows := [0, 1]
  all_extreme := false

/-- A `Cat` over `twoOpen` whose selector picks the first unanswered item. -/
def twoOpenCat : Cat where
  questionSet := twoOpen
  checkRules := { noRules with lengthThreshold := .fin 2 }
  estimator := constEstimator (.fin 2) (.fin 0) (.fin 1) (.fin 1)
  selector := firstSelector

/-- A `Cat` over `twoOpen` whose selector fails. -/
def twoOpenFailingCat : Cat where
  questionSet := twoOpen
  checkRules := { noRules with lengthThreshold := .fin 2 }
  estimator := constEstimator (.fin 2) (.fin 0) (.fin 1) (.fin 1)
  selector := failingSelector

/-- An item is unanswered: it is not among the answered rows, it is among the
unanswered rows, and its entry of the answers vector is the sentinel. -/
def Unanswered (qs : QuestionSet) (item : Int) : Prop :=
  qs.applicable_rows.contains item = false ∧ item ∈ qs.nonapplicable_rows ∧
    vecAt qs.answers item = .ok NA_INTEGER

/-- A `QuestionSet` with every item answered. -/
def allAnswered : QuestionSet where
  question_names := ["q1", "q2"]
  difficulty := List.replicate 2 [.fin (-1), .fin 1]
  model := "grm"
  answers := [1, 3]
  applicable_rows := [0, 1]
  nonapplicable_rows := []
  all_extreme := true

/-! ## The mutators of `QuestionSet`, for the worked examples -/

/-- Modelled from the spec: the answered half of the partition an answers vector
determines, the indices whose entry is not the sentinel, in increasing order
(`QuestionSet.cpp` is not among the sources). -/
def answeredOf (answers : List Int) : List Int :=
  ((List.range answers.length).filter (fun i => answers.getD i NA_INTEGER != NA_INTEGER)).map
    (fun i => (i : Int))

/-- Modelled from the spec: the unanswered half of the partition an answers vector
determines, the indices whose entry is the sentinel, in increasing order. -/
def unansweredOf (answers : List Int) : List Int :=
  ((List.range answers.length).filter (fun i => answers.getD i NA_INTEGER == NA_INTEGER)).map
    (fun i => (i : Int))

/-- Modelled from the spec: the three mutators of `QuestionSet` (`QuestionSet.cpp` is
not among the sources). `reset_answers(answers)` installs the vector and the
partition it determines; `reset_answers(responses, row)` does so with the row of the
table; `reset_answer(item, value)` writes the answer of the item and moves the item
from the unanswered to the answered rows. The flag `all_extreme` is left as it is. -/
def specOps : QuestionSetOps where
  reset_answers := fun v qs =>
    { qs with answers := v, applicable_rows := answeredOf v, nonapplicable_rows := unansweredOf v }
  reset_answers_row := fun responses row qs =>
    let v := responses.cols.map (fun col => col.getD row NA_INTEGER)
    { qs with answers := v, applicable_rows := answeredOf v, nonapplicable_rows := unansweredOf v }
  reset_answer := fun item value qs =>
    { qs with
      answers := qs.answers.set item.toNat value
      applicable_rows := qs.applicable_rows ++ [item]
      nonapplicable_rows := eraseRemove qs.nonapplicable_rows item }

/-- The partition of a `QuestionSet` is the one its answers vector determines. -/
def Consistent (qs : QuestionSet) : Prop :=
  qs.applicable_rows = answeredOf qs.answers ∧ qs.nonapplicable_rows = unansweredOf qs.answers

/-- The answer state of `qs` is the one of `qs0`: the same answers vector and, when
the partition of `qs0` is the one its answers determine, the same partition. -/
def SameAnswerState (qs0 qs : QuestionSet) : Prop :=
  qs.answers = qs0.answers ∧
    (Consistent qs0 →
      qs.applicable_rows = qs0.applicable_rows ∧ qs.nonapplicable_rows = qs0.nonapplicable_rows)

/-- The mutator `reset_answers(v)` installs exactly `v` and the partition it
determines. -/
def InstallsAnswers (ops : QuestionSetOps) : Prop :=
  ∀ (v : List Int) (qs : QuestionSet),
    (ops.reset_answers v qs).answers = v ∧
    (ops.reset_answers v qs).applicable_rows = answeredOf v ∧
    (ops.reset_answers v qs).nonapplicable_rows = unansweredOf v

/-- A table with one row, the three answers 1, 2, 3. -/
def oneRow : DataFrame where
  nrow := 1
  cols := [[1], [2], [3]]

/-- A table with two rows over three questions. -/
def twoRows : DataFrame where
  nrow := 2
  cols := [[1, 2], [3, 1], [2, 2]]

/-- A table without rows over three questions. -/
def noRows : DataFrame where
  nrow := 0
  cols := [[], [], []]

/-- An answer profile for which the probability, and with it `d1LL`, raises a domain
error at theta = 0, where the Newton-Raphson iteration starts; the bounded root
search finds 3. -/
def saturatedMLE : MLEEstimator where
  d1LL := fun theta =>
    if theta = .fin 0 then .error (.domain_error "Theta value too extreme for numerical routines.")
    else .ok (.fin 1)
  d2LL := fun _ => .ok (.fin (-1))
  d1LL_root := .ok (.fin 3)

/-! ## `Cat::obsInf` and the two factories -/

/-- The error thrown by the guard of `obsInf`. -/
def obsInfGuardErr : Err :=
  .domain_error "ObsInf should not be called if no items have been answered."

/-- The member `Cat::obsInf`. -/
def Cat.obsInf (cat : Cat) (theta : Dbl) (item : Int) : Except Err Dbl :=
  if cat.questionSet.applicable_rows.isEmpty then .error obsInfGuardErr
  else cat.estimator.obsInf cat.questionSet theta item

/-- The estimator classes `createEstimator` can construct. -/
inductive EstimationType where
  | EAP
  | MAP
  | MLE
  | WLE
deriving DecidableEq

/-- The failure at the end of `createEstimator`: `stop` formats the estimation type
into its message and throws. -/
def createEstimatorErr (estimation_type : String) : Err :=
  .rcpp_exception (estimation_type ++ " is not a valid estimation type.")

/-- The factory `Cat::createEstimator`: which estimator class is constructed from the
slots `estimation` and `estimationDefault` and the `QuestionSet`. When the fallback
is needed and `estimationDefault` names neither class, control leaves the `if` and
reaches the final `stop`. -/
def createEstimator (estimation_type estimation_default : String) (questionSet : QuestionSet) :
    Except Err EstimationType :=
  if estimation_type == "EAP" then .ok .EAP
  else if estimation_type == "MAP" then .ok .MAP
  else if estimation_type == "MLE" || estimation_type == "WLE" then
    if questionSet.applicable_rows.length == 0 || questionSet.all_extreme then
      if estimation_default == "MAP" then .ok .MAP
      else if estimation_default == "EAP" then .ok .EAP
      else .error (createEstimatorErr estimation_type)
    else if estimation_type == "MLE" then .ok .MLE
    else if estimation_type == "WLE" then .ok .WLE
    else .error (createEstimatorErr estimation_type)
  else .error (createEstimatorErr estimation_type)

/-- The selector classes `createSelector` can construct. -/
inductive SelectorVariant where
  | EPV
  | MFI
  | MEI
  | MPWI
  | MLWI
  | KL
  | LKL
  | PKL
  | MFII
  | RANDOM
deriving DecidableEq

/-- The string that selects a variant. -/
def SelectorVariant.name : SelectorVariant → String
  | .EPV => "EPV"
  | .MFI => "MFI"
  | .MEI => "MEI"
  | .MPWI => "MPWI"
  | .MLWI => "MLWI"
  | .KL => "KL"
  | .LKL => "LKL"
  | .PKL => "PKL"
  | .MFII => "MFII"
  | .RANDOM => "RANDOM"

/-- The failure at the end of `createSelector`. -/
def createSelectorErr (selection_type : String) : Err :=
  .rcpp_exception (selection_type ++ " is not a valid selection type.")

/-- The factory `Cat::createSelector`: which selector class is constructed from the
slot `selection`. -/
def createSelector (selection_type : String) : Except Err SelectorVariant :=
  if selection_type == "EPV" then .ok .EPV
  else if selection_type == "MFI" then .ok .MFI
  else if selection_type == "MEI" then .ok .MEI
  else if selection_type == "MPWI" then .ok .MPWI
  else if selection_type == "MLWI" then .ok .MLWI
  else if selection_type == "KL" then .ok .KL
  else if selection_type == "LKL" then .ok .LKL
  else if selection_type == "PKL" then .ok .PKL
  else if selection_type == "MFII" then .ok .MFII
  else if selection_type == "RANDOM" then .ok .RANDOM
  else .error (createSelectorErr selection_type)

/-! ## Notions used to state the later properties -/

/-- The `QuestionSet` after `estimateThetas` has gone through the first `k` rows of
the table: `reset_answers(responses, row)` for the rows `0 .. k - 1` in turn. -/
def stateAfterRows (ops : QuestionSetOps) (responses : DataFrame) (qs : QuestionSet) :
    Nat → QuestionSet
  | 0 => qs
  | k + 1 => ops.reset_answers_row responses k (stateAfterRows ops responses qs k)

/-- The `QuestionSet` in which `estimateThetas` evaluates row `r`: the answer state
has just been reset to row `r`. -/
def rowState (ops : QuestionSetOps) (responses : DataFrame) (qs : QuestionSet) (r : Nat) :
    QuestionSet :=
  stateAfterRows ops responses qs (r + 1)

/-- The `QuestionSet` in which `lookAhead` consults the selector for loop counter `i`:
the item is marked answered, with the response option of `i` as its answer. -/
def scoringState (qs : QuestionSet) (item : Int) (i : Nat) : QuestionSet :=
  { markAnswered qs item with
    answers := qs.answers.set item.toNat (responseOption qs.model i) }

/-- An estimator whose two derivatives are total functions of theta. -/
def totalMLE (d1LL d2LL : Dbl → Dbl) (root : Except Err Dbl) : MLEEstimator where
  d1LL := fun theta => .ok (d1LL theta)
  d2LL := fun theta => .ok (d2LL theta)
  d1LL_root := root

/-- One Newton-Raphson update, `theta_old - d1LL(theta_old) / d2LL(theta_old)`. -/
def newtonStep (fl : FloatOps) (d1LL d2LL : Dbl → Dbl) (theta_old : Dbl) : Dbl :=
  fl.sub theta_old (fl.div (d1LL theta_old) (d2LL theta_old))

/-- The iterate after `k` updates from `start`. -/
def newtonIterate (fl : FloatOps) (d1LL d2LL : Dbl → Dbl) (start : Dbl) : Nat → Dbl
  | 0 => start
  | k + 1 => newtonStep fl d1LL d2LL (newtonIterate fl d1LL d2LL start k)

/-- The value of `difference` after update `k` (for `k` at least one):
`std::abs(theta_new - theta_old)`. -/
def newtonDifference (fl : FloatOps) (d1LL d2LL : Dbl → Dbl) (start : Dbl) (k : Nat) : Dbl :=
  fl.abs (fl.sub (newtonIterate fl d1LL d2LL start k) (newtonIterate fl d1LL d2LL start (k - 1)))

/-- Three of six items answered, `lengthThreshold = 5` and `lengthOverride = 10`. -/
def threeOfSix : QuestionSet where
  question_names := ["q1", "q2", "q3", "q4", "q5", "q6"]
  difficulty := List.replicate 6 [.fin (-1), .fin 1]
  model := "grm"
  answers := [1, 2, 3, NA_INTEGER, NA_INTEGER, NA_INTEGER]
  applicable_rows := [0, 1, 2]
  nonapplicable_rows := [3, 4, 5]
  all_extreme := false

/-- A `Cat` with three answered items, `lengthThreshold = 5` and `lengthOverride = 10`. -/
def overrideCat : Cat where
  questionSet := threeOfSix
  checkRules := { noRules with lengthThreshold := .fin 5, lengthOverride := .fin 10 }
  estimator := constEstimator (.fin 2) (.fin 0) (.fin 1) (.fin 1)
  selector := firstSelector

/-- A `Cat` with three unanswered items and the two per-item thresholds configured:
`infoThreshold = 2` and `gainThreshold = 3`; every item has information 1 and
expected posterior variance 1, and the standard error is 2. -/
def perItemCat : Cat where
  questionSet := threeOfSix
  checkRules := { noRules with infoThreshold := .fin 2, gainThreshold := .fin 3 }
  estimator := constEstimator (.fin 2) (.fin 0) (.fin 1) (.fin 1)
  selector := firstSelector

/-- The derivatives of the log-likelihood `-(theta - 2)^2 / 2`. -/
def quadraticD1 : Dbl → Dbl
  | .fin x => .fin (2 - x)
  | _ => .nan

/-- The second derivative of the log-likelihood `-(theta - 2)^2 / 2`. -/
def quadraticD2 : Dbl → Dbl := fun _ => .fin (-1)

/-! ## The function `d1LL_root` hands to the root finder -/

/-- The unchecked read `v[i]` of a `std::vector` with an `int` index. A read outside
the vector is undefined behaviour; the embedding records it as an error of its own. -/
def uncheckedAt {α : Type} (v : List α) (i : Int) : Except Err α :=
  if 0 ≤ i then
    match v.get? i.toNat with
    | some x => .ok x
    | none => .error (.undefined_behaviour "operator[]")
  else .error (.undefined_behaviour "operator[]")

/-- The two reads `probs[answer_k]` and `probs[answer_k - 1]` of the score function,
in the order of the source. -/
def scoreReads (probs : List Dbl) (answer_k : Int) : Except Err (Dbl × Dbl) :=
  match uncheckedAt probs answer_k with
  | .error e => .error e
  | .ok P_star1 =>
    match uncheckedAt probs (answer_k - 1) with
    | .error e => .error e
    | .ok P_star2 => .ok (P_star1, P_star2)

/-- The term `-1 * discrimination * ((w1 - w2) / P)` one answered question adds to
`l_theta`, from the two boundary probabilities. -/
def scoreValue (fl : FloatOps) (discrimination P_star1 P_star2 : Dbl) : Dbl :=
  let Q_star1 := fl.sub (.fin 1) P_star1
  let Q_star2 := fl.sub (.fin 1) P_star2
  let P := fl.sub P_star1 P_star2
  let w2 := fl.mul P_star2 Q_star2
  let w1 := fl.mul P_star1 Q_star1
  fl.mul (fl.mul (.fin (-1)) discrimination) (fl.div (fl.sub w1 w2) P)

/-- What the lambda of `d1LL_root` reads besides the answers and `applicable_rows`:
the probability vector of a question at a value of theta, and the discriminations. -/
structure ScoreInputs where
  probability : Dbl → Int → Except Err (List Dbl)
  discrimination : List Dbl

/-- The `for` loop of the lambda `d1LL_fctn` over the answered questions listed,
with the running value of `l_theta`. -/
def d1LL_fctn_loop (fl : FloatOps) (inp : ScoreInputs) (answers : List Int) (theta : Dbl) :
    List Int → Dbl → Except Err Dbl
  | [], l_theta => .ok l_theta
  | question :: rest, l_theta =>
    match uncheckedAt answers question with
    | .error e => .error e
    | .ok answer_k =>
      match inp.probability theta question with
      | .error e => .error e
      | .ok probs =>
        match scoreReads probs answer_k with
        | .error e => .error e
        | .ok (P_star1, P_star2) =>
          match uncheckedAt inp.discrimination question with
          | .error e => .error e
          | .ok a =>
            d1LL_fctn_loop fl inp answers theta rest
              (fl.add l_theta (scoreValue fl a P_star1 P_star2))

/-- The lambda `d1LL_fctn` built in `MLEEstimator::d1LL_root`, the function handed to
`brentMethod`. -/
def d1LL_fctn (fl : FloatOps) (inp : ScoreInputs) (questionSet : QuestionSet) (theta : Dbl) :
    Except Err Dbl :=
  d1LL_fctn_loop fl inp questionSet.answers theta questionSet.applicable_rows (.fin 0)

/-- What `d1LL_fctn` reads for one answered question at a value of theta: its
discrimination `a` and the two boundary probabilities `P1 = probs[k]` and
`P2 = probs[k - 1]`, all finite, with `P1` different from `P2`. -/
def ScoreReadsAs (inp : ScoreInputs) (answers : List Int) (theta : Dbl) (question : Int)
    (a P1 P2 : ℚ) : Prop :=
  ∃ answer_k probs,
    uncheckedAt answers question = .ok answer_k ∧
    inp.probability theta question = .ok probs ∧
    scoreReads probs answer_k = .ok (.fin P1, .fin P2) ∧
    uncheckedAt inp.discrimination question = .ok (.fin a) ∧
    P1 ≠ P2

/-! ## Notions and inputs for the last properties -/

/-- An estimator whose second derivative is zero: the first update divides by zero. -/
def flatMLE : MLEEstimator where
  d1LL := fun _ => .ok (.fin 1)
  d2LL := fun _ => .ok (.fin 0)
  d1LL_root := .ok (.fin 3)

/-- A `Cat` with every item answered, `lengthThreshold = 1` (met) and
`gainOverride = 1`. -/
def allAnsweredCat : Cat where
  questionSet := allAnswered
  checkRules := { noRules with lengthThreshold := .fin 1, gainOverride := .fin 1 }
  estimator := constEstimator (.fin 2) (.fin 0) (.fin 1) (.fin 1)
  selector := firstSelector

/-! ## Double arithmetic for the examples on the score function -/

/-- The number of binary digits of `n`, by halving (`fuel` bounds the halvings). -/
def bitLengthAux : Nat → Nat → Nat
  | 0, _ => 0
  | fuel + 1, n => if n = 0 then 0 else bitLengthAux fuel (n / 2) + 1

/-- The number of binary digits of `n`. -/
def bitLength (n : Nat) : Nat := bitLengthAux n n

/-- The exponent `e` with `2 ^ e <= n / d < 2 ^ (e + 1)`, for positive `n` and `d`. -/
def floorLog2 (n d : Nat) : Int :=
  let e0 : Int := (bitLength n : Int) - (bitLength d : Int)
  if 0 ≤ e0 then (if d * 2 ^ e0.toNat ≤ n then e0 else e0 - 1)
  else (if d ≤ n * 2 ^ (-e0).toNat then e0 else e0 - 1)

/-- The integer nearest to `n / d`, a tie going to the even one. -/
def roundHalfEven (n d : Nat) : Nat :=
  let q := n / d
  let r := n % d
  if 2 * r < d then q
  else if d < 2 * r then q + 1
  else if q % 2 = 0 then q else q + 1

/-- The binary64 value nearest to the fraction of magnitude `n / d` and sign `neg`:
53 significant bits, ties to even, gradual underflow below `2 ^ (-1022)`, infinity
from `2 ^ 1024` on. -/
def roundFrac (neg : Bool) (n d : Nat) : Dbl :=
  if n = 0 then .fin 0
  else
    let e := floorLog2 n d
    let qe : Int := max e (-1022) - 52
    if 0 ≤ qe then
      let m := roundHalfEven n (d * 2 ^ qe.toNat)
      if 2 ^ 1024 ≤ m * 2 ^ qe.toNat then (if neg then .negInf else .posInf)
      else
        .fin (mkRat (if neg then -((m * 2 ^ qe.toNat : Nat) : Int)
          else ((m * 2 ^ qe.toNat : Nat) : Int)) 1)
    else
      let m := roundHalfEven (n * 2 ^ (-qe).toNat) d
      .fin (mkRat (if neg then -(m : Int) else (m : Int)) (2 ^ (-qe).toNat))

/-- The binary64 value nearest to the fraction `z / d`. -/
def roundSigned (z : Int) (d : Nat) : Dbl := roundFrac (decide (z < 0)) z.natAbs d

/-- Double arithmetic on finite operands: each of `+`, `-`, `*`, `/` returns the
binary64 value nearest to the exact result. Operations on a non-finite operand, and
`pow`, are not needed by the examples and give NaN. -/
def roundedOps : FloatOps where
  sub := fun a b =>
    match a, b with
    | .fin x, .fin y => roundSigned (x.num * y.den - y.num * x.den) (x.den * y.den)
    | _, _ => .nan
  add := fun a b =>
    match a, b with
    | .fin x, .fin y => roundSigned (x.num * y.den + y.num * x.den) (x.den * y.den)
    | _, _ => .nan
  mul := fun a b =>
    match a, b with
    | .fin x, .fin y => roundSigned (x.num * y.num) (x.den * y.den)
    | _, _ => .nan
  div := fun a b =>
    match a, b with
    | .fin x, .fin y =>
      if y.num = 0 then
        (if x.num = 0 then .nan else if x.num < 0 then .negInf else .posInf)
      else roundSigned (x.num * y.den * y.num.sign) (x.den * y.num.natAbs)
    | _, _ => .nan
  abs := fun a =>
    match a with
    | .fin x => .fin (mkRat x.num.natAbs x.den)
    | .nan => .nan
    | _ => .posInf
  pow := fun _ _ => .nan

/-- None of the operations of the expression
`-1 * a * ((P1 * (1 - P1) - P2 * (1 - P2)) / (P1 - P2))` rounds at these operands:
each returns its exact result. -/
def ExactAt (fl : FloatOps) (a P1 P2 : ℚ) : Prop :=
  fl.sub (.fin 1) (.fin P1) = .fin (1 - P1) ∧
  fl.sub (.fin 1) (.fin P2) = .fin (1 - P2) ∧
  fl.sub (.fin P1) (.fin P2) = .fin (P1 - P2) ∧
  fl.mul (.fin P2) (.fin (1 - P2)) = .fin (P2 * (1 - P2)) ∧
  fl.mul (.fin P1) (.fin (1 - P1)) = .fin (P1 * (1 - P1)) ∧
  fl.sub (.fin (P1 * (1 - P1))) (.fin (P2 * (1 - P2))) =
    .fin (P1 * (1 - P1) - P2 * (1 - P2)) ∧
  fl.div (.fin (P1 * (1 - P1) - P2 * (1 - P2))) (.fin (P1 - P2)) =
    .fin ((P1 * (1 - P1) - P2 * (1 - P2)) / (P1 - P2)) ∧
  fl.mul (.fin (-1)) (.fin a) = .fin (-1 * a) ∧
  fl.mul (.fin (-1 * a)) (.fin ((P1 * (1 - P1) - P2 * (1 - P2)) / (P1 - P2))) =
    .fin (-1 * a * ((P1 * (1 - P1) - P2 * (1 - P2)) / (P1 - P2)))

/-- None of the additions `l_theta += term` rounds, for the terms listed and the
running value `acc`. -/
def AddsExactly (fl : FloatOps) : ℚ → List ℚ → Prop
  | _, [] => True
  | acc, term :: rest =>
    fl.add (.fin acc) (.fin term) = .fin (acc + term) ∧ AddsExactly fl (acc + term) rest

/-- The double `0.3`. -/
def dblThreeTenths : ℚ := mkRat 5404319552844595 18014398509481984

/-- The double next above `0.3`, printed `0.30000000000000004`. -/
def dblThreeTenthsUp : ℚ := mkRat 1351079888211149 4503599627370496

/-- Graded items whose boundary probabilities are `0`, `0.3`, the double next above
`0.3`, and `1` at every theta; discriminations 1. -/
def adjacentInputs : ScoreInputs where
  probability := fun _ _ => .ok [.fin 0, .fin dblThreeTenths, .fin dblThreeTenthsUp, .fin 1]
  discrimination := [.fin 1, .fin 1, .fin 1]

/-- Graded items whose boundary probabilities are `0`, `1/4`, `1/2`, `1` at every
theta; discriminations 1, 1, 2. -/
def dyadicInputs : ScoreInputs where
  probability := fun _ _ => .ok [.fin 0, .fin (mkRat 1 4), .fin (mkRat 1 2), .fin 1]
  discrimination := [.fin 1, .fin 1, .fin 2]

/-! ## Lemmas on the loops of `checkStopRules` -/

theorem forItems_ok (f : Int → Except Err Bool) (g : Int → Bool) :
    ∀ (items : List Int) (acc : List Bool), (∀ item ∈ items, f item = .ok (g item)) →
      forItems f items acc = .ok (acc ++ items.map g) := by
  intro items
  induction items with
  | nil => intro acc _; simp [forItems]
  | cons item rest ih =>
    intro acc h
    have h0 : f item = .ok (g item) := h item (List.mem_cons_self _ _)
    have hr : ∀ i ∈ rest, f i = .ok (g i) := fun i hi => h i (List.mem_cons_of_mem _ hi)
    simp [forItems, h0, ih _ hr]

theorem all_map_id {α : Type} (g : α → Bool) (l : List α) :
    (l.map g).all (fun v => v) = l.all g := by
  induction l with
  | nil => rfl
  | cons a l ih => simp [ih]

theorem stepGainThreshold_reads (fl : FloatOps) (cat : Cat) (r : Readings) (h : cat.reads r)
    (acc : List Bool) :
    stepGainThreshold fl cat r.SE_est acc =
      .ok (if !cat.checkRules.gainThreshold.isnan then
        acc ++ [cat.questionSet.nonapplicable_rows.all (fun item =>
          Dbl.lt (gainOf fl r.SE_est (r.epv item)) cat.checkRules.gainThreshold)]
      else acc) := by
  unfold stepGainThreshold
  split
  · rw [forItems_ok _ (fun item =>
      Dbl.lt (gainOf fl r.SE_est (r.epv item)) cat.checkRules.gainThreshold)]
    · simp [all_map_id]
    · intro item hi
      simp [Cat.expectedPV, h.2.2.1 item hi]
  · rfl

theorem stepGainOverride_reads (fl : FloatOps) (cat : Cat) (r : Readings) (h : cat.reads r)
    (acc : List Bool) :
    stepGainOverride fl cat r.SE_est acc =
      .ok (if !cat.checkRules.gainOverride.isnan then
        acc ++ [cat.questionSet.nonapplicable_rows.all (fun item =>
          Dbl.ge (gainOf fl r.SE_est (r.epv item)) cat.checkRules.gainOverride)]
      else acc) := by
  unfold stepGainOverride
  split
  · rw [forItems_ok _ (fun item =>
      Dbl.ge (gainOf fl r.SE_est (r.epv item)) cat.checkRules.gainOverride)]
    · simp [all_map_id]
    · intro item hi
      simp [Cat.expectedPV, h.2.2.1 item hi]
  · rfl

theorem stepInfoThreshold_reads (cat : Cat) (r : Readings) (h : cat.reads r)
    (acc : List Bool) :
    stepInfoThreshold cat r.theta_est acc =
      .ok (if !cat.checkRules.infoThreshold.isnan then
        acc ++ [cat.questionSet.nonapplicable_rows.all (fun item =>
          Dbl.lt (r.info item) cat.checkRules.infoThreshold)]
      else acc) := by
  unfold stepInfoThreshold
  split
  · rw [forItems_ok _ (fun item => Dbl.lt (r.info item) cat.checkRules.infoThreshold)]
    · simp [all_map_id]
    · intro item hi
      simp [h.2.2.2 item hi]
  · rfl

theorem checkStopRules_reads (fl : FloatOps) (cat : Cat) (r : Readings) (h : cat.reads r) :
    cat.checkStopRules fl = .ok (stopGate (thresholdsOf fl cat r) (overridesOf fl cat r)) := by
  unfold Cat.checkStopRules
  simp only [h.1, h.2.1, stepGainThreshold_reads fl cat r h, stepGainOverride_reads fl cat r h,
    stepInfoThreshold_reads cat r h]
  simp only [stepLengthThreshold, stepLengthOverride, stepSeThreshold, thresholdsOf, overridesOf]
  congr 2
  · cases cat.checkRules.lengthThreshold.isnan <;> cases cat.checkRules.seThreshold.isnan <;>
      cases cat.checkRules.gainThreshold.isnan <;> cases cat.checkRules.infoThreshold.isnan <;>
      simp
  · cases cat.checkRules.lengthOverride.isnan <;> cases cat.checkRules.gainOverride.isnan <;>
      simp

theorem thresholdsOf_any (fl : FloatOps) (cat : Cat) (r : Readings) :
    (thresholdsOf fl cat r).any (fun v => v) = true ↔ someThresholdMet fl cat r := by
  unfold thresholdsOf someThresholdMet lengthThresholdMet seThresholdMet gainThresholdMet
    infoThresholdMet
  cases cat.checkRules.lengthThreshold.isnan <;> cases cat.checkRules.seThreshold.isnan <;>
    cases cat.checkRules.gainThreshold.isnan <;> cases cat.checkRules.infoThreshold.isnan <;>
    simp [List.all_eq_true]

theorem overridesOf_all (fl : FloatOps) (cat : Cat) (r : Readings) :
    (overridesOf fl cat r).all (fun v => !v) = true ↔ ¬ someOverrideMet fl cat r := by
  unfold overridesOf someOverrideMet lengthOverrideMet gainOverrideMet
  cases cat.checkRules.lengthOverride.isnan <;> cases cat.checkRules.gainOverride.isnan <;>
    simp [List.all_eq_true]

/-! ## The gate of `checkStopRules` -/

/-- C1: when the estimator's calls succeed, `checkStopRules` returns the one-element
vector holding `true` if and only if at least one configured threshold rule evaluates
to true and no configured override rule evaluates to true; it holds `false` whenever
no threshold is configured, with or without overrides. -/
theorem checkStopRules_true_iff (fl : FloatOps) (cat : Cat) (r : Readings)
    (h : cat.reads r) :
    ∃ stop, cat.checkStopRules fl = .ok [stop] ∧
      (stop = true ↔ someThresholdMet fl cat r ∧ ¬ someOverrideMet fl cat r) ∧
      (noThresholdConfigured cat.checkRules → stop = false) := by
  rw [checkStopRules_reads fl cat r h]
  have hT := thresholdsOf_any fl cat r
  have hO := overridesOf_all fl cat r
  by_cases hemp : ((thresholdsOf fl cat r).isEmpty && (overridesOf fl cat r).isEmpty) = true
  · refine ⟨false, by simp [stopGate, hemp], ?_, fun _ => rfl⟩
    have hTe : thresholdsOf fl cat r = [] := by
      exact List.isEmpty_iff.mp (Bool.and_eq_true _ _ ▸ hemp).1
    have : ¬ someThresholdMet fl cat r := by
      rw [← hT, hTe]; simp
    simp [this]
  · refine ⟨(thresholdsOf fl cat r).any (fun v => v) && (overridesOf fl cat r).all (fun v => !v),
      by simp [stopGate, hemp], ?_, ?_⟩
    · rw [Bool.and_eq_true, hT, hO]
    · intro hn
      have hTe : thresholdsOf fl cat r = [] := by
        simp [thresholdsOf, hn.1, hn.2.1, hn.2.2.1, hn.2.2.2]
      simp [hTe]

theorem checkStopRules_true_iff_witness :
    lengthFiveCat.reads (constReadings (.fin 2) (.fin 0) (.fin 1) (.fin 1)) ∧
    ∃ stop, lengthFiveCat.checkStopRules sampleOps = .ok [stop] ∧
      (stop = true ↔
        someThresholdMet sampleOps lengthFiveCat (constReadings (.fin 2) (.fin 0) (.fin 1) (.fin 1)) ∧
        ¬ someOverrideMet sampleOps lengthFiveCat
          (constReadings (.fin 2) (.fin 0) (.fin 1) (.fin 1))) ∧
      (noThresholdConfigured lengthFiveCat.checkRules → stop = false) :=
  ⟨⟨rfl, rfl, fun _ _ => rfl, fun _ _ => rfl⟩,
    checkStopRules_true_iff sampleOps lengthFiveCat _ ⟨rfl, rfl, fun _ _ => rfl, fun _ _ => rfl⟩⟩

/-- C2: with `lengthThreshold = 5` met (five answered items) and `seThreshold = 1` not
met (standard error 2), and no override, `checkStopRules` returns `true`: one met
stopping rule is enough, the other configured rule need not be met. -/
theorem checkStopRules_one_rule_unmet :
    twoThresholdsCat.checkStopRules sampleOps = .ok [true] ∧
    lengthThresholdMet twoThresholdsCat ∧
    twoThresholdsCat.checkRules.seThreshold.isnan = false ∧
    ¬ seThresholdMet twoThresholdsCat (constReadings (.fin 2) (.fin 0) (.fin 1) (.fin 1)) := by
  refine ⟨by rfl, ⟨by decide, by decide⟩, by decide, ?_⟩
  intro h
  exact absurd h.2 (by decide)

/-! ## `lookAhead`: what the loop does to the `QuestionSet` -/

theorem lookAheadLoop_state (sel : Selector) (item : Int) :
    ∀ (ns : List Nat) (qs : QuestionSet) (items ros : List Int),
      ∃ a, (lookAheadLoop sel item ns qs items ros).2 = { qs with answers := a } ∧
        (a = qs.answers ∨
          ∃ i ∈ ns, a = qs.answers.set item.toNat (responseOption qs.model i)) := by
  intro ns
  induction ns with
  | nil => intro qs items ros; exact ⟨qs.answers, rfl, Or.inl rfl⟩
  | cons i rest ih =>
    intro qs items ros
    unfold lookAheadLoop
    cases hset : vecSetAt qs.answers item (responseOption qs.model i) with
    | error e => exact ⟨qs.answers, rfl, Or.inl rfl⟩
    | ok answers =>
      have ha : answers = qs.answers.set item.toNat (responseOption qs.model i) := by
        unfold vecSetAt at hset
        split at hset
        · injection hset with h; exact h.symm
        · cases hset
      have hhere : ∃ j ∈ i :: rest,
          answers = qs.answers.set item.toNat (responseOption qs.model j) :=
        ⟨i, List.mem_cons_self _ _, ha⟩
      simp only []
      cases hsel : sel.selectItem { qs with answers := answers } with
      | error e => exact ⟨answers, rfl, Or.inr hhere⟩
      | ok selection =>
        simp only []
        cases hat : vecAt answers item with
        | error e => exact ⟨answers, rfl, Or.inr hhere⟩
        | ok a0 =>
          simp only []
          obtain ⟨a, hst, hor⟩ := ih { qs with answers := answers }
            (items ++ [selection.item + 1]) (ros ++ [a0])
          refine ⟨a, hst, Or.inr ?_⟩
          rcases hor with h | ⟨j, hj, h⟩
          · exact ⟨i, List.mem_cons_self _ _, h.trans ha⟩
          · refine ⟨j, List.mem_cons_of_mem _ hj, ?_⟩
            rw [h, ha]
            simp [List.set_set]

theorem lookAheadLoop_ok_inRange (sel : Selector) (item : Int) (i : Nat) (rest : List Nat)
    (qs : QuestionSet) (items ros : List Int) (out : List Int × List Int)
    (h : (lookAheadLoop sel item (i :: rest) qs items ros).1 = .ok out) :
    0 ≤ item ∧ item.toNat < qs.answers.length := by
  unfold lookAheadLoop at h
  cases hset : vecSetAt qs.answers item (responseOption qs.model i) with
  | error e => rw [hset] at h; cases h
  | ok answers =>
    unfold vecSetAt at hset
    split at hset
    · assumption
    · cases hset

theorem range_one_ne_nil (n : Nat) : List.range' 1 (n + 1) ≠ [] := by
  simp [List.range'_succ]

theorem length_of_state {qs : QuestionSet} {item : Int} {model : String} {a : List Int}
    {ns : List Nat}
    (h : a = qs.answers ∨ ∃ i ∈ ns, a = qs.answers.set item.toNat (responseOption model i)) :
    a.length = qs.answers.length := by
  rcases h with h | ⟨i, _, h⟩
  · rw [h]
  · rw [h, List.length_set]

theorem set_of_get_some {α : Type} (x : α) :
    ∀ (l : List α) (n : Nat), l.get? n = some x → l.set n x = l := by
  intro l
  induction l with
  | nil => intro n h; cases n <;> simp at h
  | cons a l ih =>
    intro n h
    cases n with
    | zero => simp at h; simp [h]
    | succ n => simp at h; simp [ih n (by simpa using h)]

theorem vecAt_ok {α : Type} {v : List α} {i : Int} {x : α} (h : vecAt v i = .ok x) :
    0 ≤ i ∧ v.get? i.toNat = some x := by
  unfold vecAt at h
  split at h
  · rename_i hi
    refine ⟨hi, ?_⟩
    cases hg : v.get? i.toNat with
    | none => rw [hg] at h; cases h
    | some y => rw [hg] at h; injection h with h; rw [h]
  · cases h

/-- The three ways `lookAhead` can end once its guard has let the item through. -/
theorem lookAhead_outcomes (cat : Cat) (item : Int)
    (hg : cat.questionSet.applicable_rows.contains item = false) :
    (∃ e, vecAt cat.questionSet.difficulty item = .error e ∧
      cat.lookAhead item =
        (.error e, { cat with questionSet := markAnswered cat.questionSet item })) ∨
    (∃ d e a, vecAt cat.questionSet.difficulty item = .ok d ∧
      (a = cat.questionSet.answers ∨ ∃ i ∈ List.range' 1 (d.length + 1),
        a = cat.questionSet.answers.set item.toNat (responseOption cat.questionSet.model i)) ∧
      cat.lookAhead item =
        (.error e, { cat with questionSet :=
          { markAnswered cat.questionSet item with answers := a } })) ∨
    (∃ d out, vecAt cat.questionSet.difficulty item = .ok d ∧
      0 ≤ item ∧ item.toNat < cat.questionSet.answers.length ∧
      cat.lookAhead item =
        (.ok out, { cat with questionSet :=
          { cat.questionSet with
            nonapplicable_rows := eraseRemove cat.questionSet.nonapplicable_rows item ++ [item]
            applicable_rows := popBack (cat.questionSet.applicable_rows ++ [item])
            answers := cat.questionSet.answers.set item.toNat NA_INTEGER } })) := by
  unfold Cat.lookAhead
  simp only [hg, Bool.false_eq_true, if_false]
  have hd : (markAnswered cat.questionSet item).difficulty = cat.questionSet.difficulty := rfl
  rw [hd]
  cases hdiff : vecAt cat.questionSet.difficulty item with
  | error e => exact Or.inl ⟨e, rfl, rfl⟩
  | ok d =>
    right
    simp only []
    obtain ⟨a, hst, hor⟩ := lookAheadLoop_state cat.selector item (List.range' 1 (d.length + 1))
      (markAnswered cat.questionSet item) [] []
    have hor2 : a = cat.questionSet.answers ∨ ∃ i ∈ List.range' 1 (d.length + 1),
        a = cat.questionSet.answers.set item.toNat (responseOption cat.questionSet.model i) :=
      hor
    cases hloop : lookAheadLoop cat.selector item (List.range' 1 (d.length + 1))
        (markAnswered cat.questionSet item) [] [] with
    | mk res qs2 =>
      rw [hloop] at hst
      have hqs2 : qs2 = { markAnswered cat.questionSet item with answers := a } := hst
      cases res with
      | error e =>
        left
        exact ⟨d, e, a, rfl, hor2, by subst hqs2; rfl⟩
      | ok pr =>
        right
        obtain ⟨items, ros⟩ := pr
        have hok : (lookAheadLoop cat.selector item (1 :: List.range' 2 d.length)
            (markAnswered cat.questionSet item) [] []).1 = .ok (items, ros) := by
          have : List.range' 1 (d.length + 1) = 1 :: List.range' 2 d.length := by
            simp [List.range'_succ]
          rw [← this, hloop]
        have hin := lookAheadLoop_ok_inRange _ _ _ _ _ _ _ _ hok
        have hin2 : 0 ≤ item ∧ item.toNat < cat.questionSet.answers.length := hin
        have hlen : a.length = cat.questionSet.answers.length := length_of_state hor2
        have hset : a.set item.toNat NA_INTEGER =
            cat.questionSet.answers.set item.toNat NA_INTEGER := by
          rcases hor2 with h | ⟨i, _, h⟩
          · rw [h]
          · rw [h]; simp [List.set_set]
        refine ⟨d, ⟨ros, items⟩, rfl, hin2.1, hin2.2, ?_⟩
        simp only [hqs2, vecSetAt, hlen, hin2.1, hin2.2, and_self, if_true, hset]
        rfl

/-! ## `lookAhead`: the frame on normal return and on failure -/

/-- C3 (amended): on an unanswered item, a `lookAhead` that returns normally leaves
the answers vector and `applicable_rows` identical to their values before the call,
and leaves `nonapplicable_rows` with the same members but not as the same sequence:
every occurrence of the item is removed and the item is appended at the end. -/
theorem lookAhead_restores_up_to_order (cat : Cat) (item : Int) (out : LookAheadResult)
    (hun : Unanswered cat.questionSet item)
    (hret : (cat.lookAhead item).1 = .ok out) :
    (cat.lookAhead item).2.questionSet.answers = cat.questionSet.answers ∧
    (cat.lookAhead item).2.questionSet.applicable_rows = cat.questionSet.applicable_rows ∧
    (cat.lookAhead item).2.questionSet.nonapplicable_rows =
      eraseRemove cat.questionSet.nonapplicable_rows item ++ [item] ∧
    (∀ x, x ∈ (cat.lookAhead item).2.questionSet.nonapplicable_rows ↔
      x ∈ cat.questionSet.nonapplicable_rows) := by
  obtain ⟨hg, hmem, hna⟩ := hun
  rcases lookAhead_outcomes cat item hg with ⟨e, _, h⟩ | ⟨d, e, a, _, _, h⟩ | ⟨d, o, _, _, _, h⟩
  · rw [h] at hret; cases hret
  · rw [h] at hret; cases hret
  · rw [h]
    refine ⟨?_, ?_, rfl, ?_⟩
    · exact set_of_get_some _ _ _ (vecAt_ok hna).2
    · simp [popBack]
    · intro x
      simp only [eraseRemove, List.mem_append, List.mem_filter, List.mem_singleton]
      constructor
      · rintro (⟨hx, _⟩ | hx)
        · exact hx
        · rw [hx]; exact hmem
      · intro hx
        by_cases hxi : x = item
        · exact Or.inr hxi
        · exact Or.inl ⟨hx, by simpa using hxi⟩

theorem lookAhead_restores_up_to_order_witness :
    Unanswered twoOpenCat.questionSet 0 ∧
    (twoOpenCat.lookAhead 0).1 = .ok { response_option := [1, 2, 3], next_item := [2, 2, 2] } ∧
    ((twoOpenCat.lookAhead 0).2.questionSet.answers = twoOpenCat.questionSet.answers ∧
    (twoOpenCat.lookAhead 0).2.questionSet.applicable_rows =
      twoOpenCat.questionSet.applicable_rows ∧
    (twoOpenCat.lookAhead 0).2.questionSet.nonapplicable_rows =
      eraseRemove twoOpenCat.questionSet.nonapplicable_rows 0 ++ [0] ∧
    (∀ x, x ∈ (twoOpenCat.lookAhead 0).2.questionSet.nonapplicable_rows ↔
      x ∈ twoOpenCat.questionSet.nonapplicable_rows)) :=
  ⟨⟨by decide, by decide, by rfl⟩, by rfl,
    lookAhead_restores_up_to_order twoOpenCat 0
      { response_option := [1, 2, 3], next_item := [2, 2, 2] }
      ⟨by decide, by decide, by rfl⟩ (by rfl)⟩

/-- Counterexample to C3 as stated: item 0 of `twoOpen` is unanswered, `lookAhead(0)`
returns normally, and `nonapplicable_rows` goes from `[0, 1]` to `[1, 0]`. -/
theorem lookAhead_reorders_unanswered_rows :
    Unanswered twoOpenCat.questionSet 0 ∧
    (twoOpenCat.lookAhead 0).1 = .ok { response_option := [1, 2, 3], next_item := [2, 2, 2] } ∧
    twoOpenCat.questionSet.nonapplicable_rows = [0, 1] ∧
    (twoOpenCat.lookAhead 0).2.questionSet.nonapplicable_rows = [1, 0] ∧
    (twoOpenCat.lookAhead 0).2.questionSet.nonapplicable_rows ≠
      twoOpenCat.questionSet.nonapplicable_rows :=
  ⟨⟨by decide, by decide, by rfl⟩, by rfl, by rfl, by rfl, by decide⟩

/-- C4 (amended): when `lookAhead(item)` fails after its guard has let the item
through (the selector or an indexed access throws while a hypothetical response is
scored), the error reaches the caller with nothing rolled back: the item stays
appended to `applicable_rows` and removed from `nonapplicable_rows`, and the answers
vector differs from its value before the call at most at the item, where it holds the
response option that was being scored. -/
theorem lookAhead_failure_keeps_mutation (cat : Cat) (item : Int) (e : Err)
    (hg : cat.questionSet.applicable_rows.contains item = false)
    (herr : (cat.lookAhead item).1 = .error e) :
    (cat.lookAhead item).2.questionSet.applicable_rows =
      cat.questionSet.applicable_rows ++ [item] ∧
    (cat.lookAhead item).2.questionSet.applicable_rows ≠ cat.questionSet.applicable_rows ∧
    (cat.lookAhead item).2.questionSet.nonapplicable_rows =
      eraseRemove cat.questionSet.nonapplicable_rows item ∧
    ((cat.lookAhead item).2.questionSet.answers = cat.questionSet.answers ∨
      ∃ i, 1 ≤ i ∧ (cat.lookAhead item).2.questionSet.answers =
        cat.questionSet.answers.set item.toNat (responseOption cat.questionSet.model i)) := by
  have hne : cat.questionSet.applicable_rows ++ [item] ≠ cat.questionSet.applicable_rows := by
    intro h
    have := congrArg List.length h
    simp at this
  rcases lookAhead_outcomes cat item hg with ⟨e1, _, h⟩ | ⟨d, e1, a, _, ha, h⟩ | ⟨d, o, _, _, _, h⟩
  · rw [h]
    exact ⟨rfl, hne, rfl, Or.inl rfl⟩
  · rw [h]
    refine ⟨rfl, hne, rfl, ?_⟩
    rcases ha with ha | ⟨i, hi, ha⟩
    · exact Or.inl ha
    · exact Or.inr ⟨i, (List.mem_range'_1.mp hi).1, ha⟩
  · rw [h] at herr; cases herr

theorem lookAhead_failure_keeps_mutation_witness :
    twoOpenFailingCat.questionSet.applicable_rows.contains 0 = false ∧
    (twoOpenFailingCat.lookAhead 0).1 =
      .error (.domain_error "Theta value too extreme for numerical routines.") ∧
    ((twoOpenFailingCat.lookAhead 0).2.questionSet.applicable_rows =
      twoOpenFailingCat.questionSet.applicable_rows ++ [0] ∧
    (twoOpenFailingCat.lookAhead 0).2.questionSet.applicable_rows ≠
      twoOpenFailingCat.questionSet.applicable_rows ∧
    (twoOpenFailingCat.lookAhead 0).2.questionSet.nonapplicable_rows =
      eraseRemove twoOpenFailingCat.questionSet.nonapplicable_rows 0 ∧
    ((twoOpenFailingCat.lookAhead 0).2.questionSet.answers =
        twoOpenFailingCat.questionSet.answers ∨
      ∃ i, 1 ≤ i ∧ (twoOpenFailingCat.lookAhead 0).2.questionSet.answers =
        twoOpenFailingCat.questionSet.answers.set (0 : Int).toNat
          (responseOption twoOpenFailingCat.questionSet.model i))) :=
  ⟨by decide, by rfl,
    lookAhead_failure_keeps_mutation twoOpenFailingCat 0
      (.domain_error "Theta value too extreme for numerical routines.") (by decide) (by rfl)⟩

/-- Counterexample to C4 as stated: the selector fails while `lookAhead(0)` scores the
first response option; the error reaches the caller and the answers,
`applicable_rows` and `nonapplicable_rows` are not the ones before the call. -/
theorem lookAhead_failure_not_rolled_back :
    (twoOpenFailingCat.lookAhead 0).1 =
      .error (.domain_error "Theta value too extreme for numerical routines.") ∧
    twoOpenFailingCat.questionSet.answers = [NA_INTEGER, NA_INTEGER, 2] ∧
    twoOpenFailingCat.questionSet.applicable_rows = [2] ∧
    twoOpenFailingCat.questionSet.nonapplicable_rows = [0, 1] ∧
    (twoOpenFailingCat.lookAhead 0).2.questionSet.answers = [1, NA_INTEGER, 2] ∧
    (twoOpenFailingCat.lookAhead 0).2.questionSet.applicable_rows = [2, 0] ∧
    (twoOpenFailingCat.lookAhead 0).2.questionSet.nonapplicable_rows = [1] :=
  ⟨by rfl, by rfl, by rfl, by rfl, by rfl, by rfl, by rfl⟩

/-! ## The guards of `selectItem` and `lookAhead` -/

/-- C8: `selectItem` fails with the domain error of its guard, whatever the selector
is (so without consulting it), if and only if `nonapplicable_rows` is empty; when at
least one item is unanswered the guard does not fire and the outcome is the
selector's: its error if it fails, its selection published otherwise. -/
theorem selectItem_guard_iff (qs : QuestionSet) :
    (qs.nonapplicable_rows = [] ↔
      ∀ cat : Cat, cat.questionSet = qs → cat.selectItem = .error selectItemGuardErr) ∧
    (qs.nonapplicable_rows ≠ [] → ∀ cat : Cat, cat.questionSet = qs →
      cat.selectItem = (cat.selector.selectItem qs).map publishSelection) := by
  have hbody : qs.nonapplicable_rows ≠ [] → ∀ cat : Cat, cat.questionSet = qs →
      cat.selectItem = (cat.selector.selectItem qs).map publishSelection := by
    intro hne cat hcat
    subst hcat
    have : cat.questionSet.nonapplicable_rows.isEmpty = false := by
      cases h : cat.questionSet.nonapplicable_rows with
      | nil => exact absurd h hne
      | cons a l => rfl
    unfold Cat.selectItem
    simp only [this, Bool.false_eq_true, if_false]
    cases cat.selector.selectItem cat.questionSet <;> rfl
  refine ⟨⟨?_, ?_⟩, hbody⟩
  · intro hemp cat hcat
    subst hcat
    unfold Cat.selectItem
    simp [hemp]
  · intro hall
    by_contra hne
    have h1 := hall ⟨qs, noRules, constEstimator .nan .nan .nan .nan, firstSelector⟩ rfl
    have h2 := hbody hne ⟨qs, noRules, constEstimator .nan .nan .nan .nan, firstSelector⟩ rfl
    rw [h2] at h1
    cases hq : qs.nonapplicable_rows with
    | nil => exact hne hq
    | cons a l =>
      simp [firstSelector, hq, Except.map] at h1

/-- C9: `lookAhead(item)` on an item that is in `applicable_rows` fails with the domain
error of its guard, and the `Cat` it leaves behind (answers, `applicable_rows`,
`nonapplicable_rows` and all the rest) is the one before the call. -/
theorem lookAhead_answered_item_fails (cat : Cat) (item : Int)
    (h : item ∈ cat.questionSet.applicable_rows) :
    cat.lookAhead item = (.error lookAheadGuardErr, cat) := by
  unfold Cat.lookAhead
  have : cat.questionSet.applicable_rows.contains item = true := by
    simpa using h
  rw [if_pos this]

theorem lookAhead_answered_item_fails_witness :
    (2 : Int) ∈ twoOpenCat.questionSet.applicable_rows ∧
    twoOpenCat.lookAhead 2 = (.error lookAheadGuardErr, twoOpenCat) :=
  ⟨by decide, lookAhead_answered_item_fails twoOpenCat 2 (by decide)⟩

/-! ## `estimateThetas` and `simulateAll` -/

/-- C5: `estimateThetas` on a table with one row and as many columns as there are
questions returns normally and leaves the `QuestionSet` holding that row: the answers
go from `[NA, NA, 2]` to `[1, 2, 3]` and the partition from `[2]`, `[0, 1]` to
`[0, 1, 2]`, `[]`. -/
theorem estimateThetas_keeps_last_row :
    oneRow.ncol = twoOpenCat.questionSet.question_names.length ∧
    (twoOpenCat.estimateThetas specOps oneRow).1 = .ok [.fin 0] ∧
    twoOpenCat.questionSet.answers = [NA_INTEGER, NA_INTEGER, 2] ∧
    twoOpenCat.questionSet.applicable_rows = [2] ∧
    twoOpenCat.questionSet.nonapplicable_rows = [0, 1] ∧
    (twoOpenCat.estimateThetas specOps oneRow).2.questionSet.answers = [1, 2, 3] ∧
    (twoOpenCat.estimateThetas specOps oneRow).2.questionSet.applicable_rows = [0, 1, 2] ∧
    (twoOpenCat.estimateThetas specOps oneRow).2.questionSet.nonapplicable_rows = [] :=
  ⟨by rfl, by rfl, by rfl, by rfl, by rfl, by rfl, by rfl, by rfl⟩

theorem simulateWhile_fuel_succ (fl : FloatOps) (ops : QuestionSetOps) (responses : DataFrame)
    (row : Nat) :
    ∀ (fuel : Nat) (cat : Cat) (r : Except Err Unit × Cat),
      simulateWhile fl ops responses row fuel cat = some r →
      simulateWhile fl ops responses row (fuel + 1) cat = some r := by
  intro fuel
  induction fuel with
  | zero => intro cat r h; simp [simulateWhile] at h
  | succ n ih =>
    intro cat r h
    rw [simulateWhile] at h ⊢
    by_cases hemp : cat.questionSet.nonapplicable_rows.isEmpty = true
    · simp only [hemp, if_true] at h ⊢; exact h
    · simp only [hemp, Bool.false_eq_true, if_false] at h ⊢
      cases hc : cat.checkStopRules fl with
      | error e => simp only [hc] at h ⊢; exact h
      | ok stop =>
        cases stop with
        | nil => simp only [hc] at h ⊢; exact h
        | cons b rest =>
          simp only [hc] at h ⊢
          cases b with
          | true => simp only [if_true] at h ⊢; exact h
          | false =>
            simp only [Bool.false_eq_true, if_false] at h ⊢
            cases hsel : cat.selector.selectItem cat.questionSet with
            | error e => simp only [hsel] at h ⊢; exact h
            | ok selection =>
              simp only [hsel] at h ⊢
              cases hcell : responses.cell selection.item row with
              | error e => simp only [hcell] at h ⊢; exact h
              | ok v =>
                simp only [hcell] at h ⊢
                exact ih _ _ h

theorem simulateWhile_fuel_mono (fl : FloatOps) (ops : QuestionSetOps) (responses : DataFrame)
    (row : Nat) (fuel more : Nat) (cat : Cat) (r : Except Err Unit × Cat)
    (h : simulateWhile fl ops responses row fuel cat = some r) :
    simulateWhile fl ops responses row (fuel + more) cat = some r := by
  induction more with
  | zero => exact h
  | succ k ih => exact simulateWhile_fuel_succ fl ops responses row _ cat r ih

theorem simulateRow_fuel_mono (fl : FloatOps) (ops : QuestionSetOps) (responses : DataFrame)
    (answers : List Int) (fuel more row : Nat) (cat : Cat) (r : Except Err Dbl × Cat)
    (h : simulateRow fl ops responses answers fuel row cat = some r) :
    simulateRow fl ops responses answers (fuel + more) row cat = some r := by
  unfold simulateRow at h ⊢
  cases hw : simulateWhile fl ops responses row fuel cat with
  | none => rw [hw] at h; cases h
  | some w =>
    rw [simulateWhile_fuel_mono fl ops responses row fuel more cat w hw]
    rw [hw] at h
    exact h

theorem simulateRows_fuel_mono (fl : FloatOps) (ops : QuestionSetOps) (responses : DataFrame)
    (answers : List Int) (fuel more : Nat) :
    ∀ (rows : List Nat) (cat : Cat) (thetas : List Dbl) (r : Except Err (List Dbl) × Cat),
      simulateRows fl ops responses answers fuel rows cat thetas = some r →
      simulateRows fl ops responses answers (fuel + more) rows cat thetas = some r := by
  intro rows
  induction rows with
  | nil => intro cat thetas r h; simpa [simulateRows] using h
  | cons row rest ih =>
    intro cat thetas r h
    unfold simulateRows at h ⊢
    cases hr : simulateRow fl ops responses answers fuel row cat with
    | none => rw [hr] at h; cases h
    | some w =>
      rw [simulateRow_fuel_mono fl ops responses answers fuel more row cat w hr]
      rw [hr] at h
      obtain ⟨res, c1⟩ := w
      cases res with
      | error e => exact h
      | ok th => exact ih c1 _ r h

/-- More fuel does not change what a `simulateAll` that returned has returned. -/
theorem simulateAll_fuel_mono (fl : FloatOps) (ops : QuestionSetOps) (fuel more : Nat)
    (cat : Cat) (responses : DataFrame) (r : Except Err (List Dbl) × Cat)
    (h : cat.simulateAll fl ops fuel responses = some r) :
    cat.simulateAll fl ops (fuel + more) responses = some r := by
  unfold Cat.simulateAll at h ⊢
  split
  · rename_i hg; rw [if_pos hg] at h; exact h
  · rename_i hg; rw [if_neg hg] at h
    exact simulateRows_fuel_mono fl ops responses _ fuel more _ cat [] r h

theorem simulateRow_ok_state (fl : FloatOps) (ops : QuestionSetOps) (responses : DataFrame)
    (answers : List Int) (fuel row : Nat) (cat cat1 : Cat) (theta : Dbl)
    (h : simulateRow fl ops responses answers fuel row cat = some (.ok theta, cat1)) :
    ∃ qs, cat1.questionSet = ops.reset_answers answers qs := by
  unfold simulateRow at h
  cases hw : simulateWhile fl ops responses row fuel cat with
  | none => rw [hw] at h; cases h
  | some r =>
    obtain ⟨res, cw⟩ := r
    rw [hw] at h
    cases res with
    | error e => cases h
    | ok u =>
      simp only [] at h
      cases ht : cw.estimateTheta with
      | error e => rw [ht] at h; cases h
      | ok th =>
        rw [ht] at h
        simp only [Option.some.injEq, Prod.mk.injEq] at h
        exact ⟨cw.questionSet, by rw [← h.2]⟩

theorem simulateRows_ok_state (fl : FloatOps) (ops : QuestionSetOps) (responses : DataFrame)
    (answers : List Int) (fuel : Nat) :
    ∀ (rows : List Nat) (cat cat1 : Cat) (thetas out : List Dbl),
      simulateRows fl ops responses answers fuel rows cat thetas = some (.ok out, cat1) →
      cat1 = cat ∨ ∃ qs, cat1.questionSet = ops.reset_answers answers qs := by
  intro rows
  induction rows with
  | nil =>
    intro cat cat1 thetas out h
    simp only [simulateRows, Option.some.injEq, Prod.mk.injEq] at h
    exact Or.inl h.2.symm
  | cons row rest ih =>
    intro cat cat1 thetas out h
    unfold simulateRows at h
    cases hr : simulateRow fl ops responses answers fuel row cat with
    | none => rw [hr] at h; cases h
    | some r =>
      obtain ⟨res, c1⟩ := r
      rw [hr] at h
      cases res with
      | error e => cases h
      | ok th =>
        simp only [] at h
        rcases ih c1 cat1 _ out h with h1 | h1
        · exact Or.inr (h1 ▸ simulateRow_ok_state fl ops responses answers fuel row cat c1 th hr)
        · exact Or.inr h1

theorem simulateRows_append (fl : FloatOps) (ops : QuestionSetOps) (responses : DataFrame)
    (answers : List Int) (fuel : Nat) (post : List Nat) :
    ∀ (pre : List Nat) (cat cat1 : Cat) (thetas out : List Dbl),
      simulateRows fl ops responses answers fuel (pre ++ post) cat thetas = some (.ok out, cat1) →
      ∃ outk catk,
        simulateRows fl ops responses answers fuel pre cat thetas = some (.ok outk, catk) ∧
        simulateRows fl ops responses answers fuel post catk outk = some (.ok out, cat1) := by
  intro pre
  induction pre with
  | nil => intro cat cat1 thetas out h; exact ⟨thetas, cat, rfl, h⟩
  | cons row rest ih =>
    intro cat cat1 thetas out h
    simp only [List.cons_append] at h
    unfold simulateRows at h
    cases hr : simulateRow fl ops responses answers fuel row cat with
    | none => rw [hr] at h; cases h
    | some r =>
      obtain ⟨res, c1⟩ := r
      rw [hr] at h
      cases res with
      | error e => cases h
      | ok th =>
        obtain ⟨outk, catk, hpre, hpost⟩ := ih c1 cat1 _ out h
        refine ⟨outk, catk, ?_, hpost⟩
        simp only [simulateRows, hr]
        exact hpre

theorem sameAnswerState_of_reset (ops : QuestionSetOps) (hinst : InstallsAnswers ops)
    (qs0 qs qs1 : QuestionSet) (h : qs1 = ops.reset_answers qs0.answers qs) :
    SameAnswerState qs0 qs1 := by
  obtain ⟨h1, h2, h3⟩ := hinst qs0.answers qs
  subst h
  exact ⟨h1, fun hc => ⟨h2.trans hc.1.symm, h3.trans hc.2.symm⟩⟩

/-- C6: when `reset_answers(v)` installs exactly `v` and the partition it determines,
a `simulateAll` that returns leaves the answers vector it found at entry (and the
partition, when that was the one the answers determine); and every row of the table
is simulated from such a state: the rows before it have returned, leaving a `Cat`
whose answer state is the one of the entry, and the rest of the run starts there. -/
theorem simulateAll_rows_start_from_entry_answers (fl : FloatOps) (ops : QuestionSetOps)
    (fuel : Nat) (cat cat1 : Cat) (responses : DataFrame) (thetas : List Dbl)
    (hinst : InstallsAnswers ops)
    (hret : cat.simulateAll fl ops fuel responses = some (.ok thetas, cat1)) :
    SameAnswerState cat.questionSet cat1.questionSet ∧
    ∀ pre row post, List.range responses.nrow = pre ++ row :: post →
      ∃ outk catk,
        simulateRows fl ops responses cat.questionSet.answers fuel pre cat [] =
          some (.ok outk, catk) ∧
        SameAnswerState cat.questionSet catk.questionSet ∧
        simulateRows fl ops responses cat.questionSet.answers fuel (row :: post) catk outk =
          some (.ok thetas, cat1) := by
  have hsame : ∀ (rows : List Nat) (c : Cat) (out : List Dbl),
      simulateRows fl ops responses cat.questionSet.answers fuel rows cat [] = some (.ok out, c) →
      SameAnswerState cat.questionSet c.questionSet := by
    intro rows c out h
    rcases simulateRows_ok_state fl ops responses _ fuel rows cat c [] out h with h1 | ⟨qs, h1⟩
    · rw [h1]; exact ⟨rfl, fun _ => ⟨rfl, rfl⟩⟩
    · exact sameAnswerState_of_reset ops hinst _ qs _ h1
  unfold Cat.simulateAll at hret
  split at hret
  · cases hret
  · refine ⟨hsame _ _ _ hret, ?_⟩
    intro pre row post hsplit
    rw [hsplit] at hret
    obtain ⟨outk, catk, hpre, hpost⟩ :=
      simulateRows_append fl ops responses _ fuel (row :: post) pre cat cat1 [] thetas hret
    exact ⟨outk, catk, hpre, hsame _ _ _ hpre, hpost⟩

theorem simulateAll_rows_start_from_entry_answers_witness :
    InstallsAnswers specOps ∧
    twoOpenCat.simulateAll sampleOps specOps 5 twoRows =
      some (.ok [.fin 0, .fin 0], twoOpenCat) ∧
    (SameAnswerState twoOpenCat.questionSet twoOpenCat.questionSet ∧
    ∀ pre row post, List.range twoRows.nrow = pre ++ row :: post →
      ∃ outk catk,
        simulateRows sampleOps specOps twoRows twoOpenCat.questionSet.answers 5 pre twoOpenCat [] =
          some (.ok outk, catk) ∧
        SameAnswerState twoOpenCat.questionSet catk.questionSet ∧
        simulateRows sampleOps specOps twoRows twoOpenCat.questionSet.answers 5 (row :: post)
          catk outk = some (.ok [.fin 0, .fin 0], twoOpenCat)) :=
  ⟨fun _ _ => ⟨rfl, rfl, rfl⟩, by rfl,
    simulateAll_rows_start_from_entry_answers sampleOps specOps 5 twoOpenCat twoOpenCat twoRows
      [.fin 0, .fin 0] (fun _ _ => ⟨rfl, rfl, rfl⟩) (by rfl)⟩

/-- C10: `simulateAll` fails with the domain error of its guard and leaves the `Cat`
as it was, for every table, estimator, selector and setting of the two overrides, if
and only if `lengthThreshold`, `seThreshold`, `infoThreshold` and `gainThreshold` are
all NaN; when one of the four is set the guard does not fire and the rows are
simulated. -/
theorem simulateAll_guard_iff (rules : CheckRules) :
    ((∀ (cat : Cat) (fl : FloatOps) (ops : QuestionSetOps) (fuel : Nat) (responses : DataFrame),
        cat.checkRules.lengthThreshold = rules.lengthThreshold →
        cat.checkRules.seThreshold = rules.seThreshold →
        cat.checkRules.infoThreshold = rules.infoThreshold →
        cat.checkRules.gainThreshold = rules.gainThreshold →
        cat.simulateAll fl ops fuel responses = some (.error simulateAllGuardErr, cat)) ↔
      (rules.lengthThreshold.isnan = true ∧ rules.seThreshold.isnan = true ∧
        rules.infoThreshold.isnan = true ∧ rules.gainThreshold.isnan = true)) ∧
    (¬ (rules.lengthThreshold.isnan = true ∧ rules.seThreshold.isnan = true ∧
        rules.infoThreshold.isnan = true ∧ rules.gainThreshold.isnan = true) →
      ∀ (cat : Cat) (fl : FloatOps) (ops : QuestionSetOps) (fuel : Nat) (responses : DataFrame),
        cat.checkRules = rules →
        cat.simulateAll fl ops fuel responses =
          simulateRows fl ops responses cat.questionSet.answers fuel
            (List.range responses.nrow) cat []) := by
  have hguard : noStoppingRule rules = true ↔
      (rules.lengthThreshold.isnan = true ∧ rules.seThreshold.isnan = true ∧
        rules.infoThreshold.isnan = true ∧ rules.gainThreshold.isnan = true) := by
    simp [noStoppingRule, and_assoc]
  refine ⟨⟨?_, ?_⟩, ?_⟩
  · intro hall
    by_contra hne
    have hfalse : noStoppingRule rules = false := by
      cases h : noStoppingRule rules with
      | false => rfl
      | true => exact absurd (hguard.mp h) hne
    have h1 := hall ⟨twoOpen, rules, constEstimator .nan .nan .nan .nan, firstSelector⟩
      sampleOps specOps 0 noRows rfl rfl rfl rfl
    simp [Cat.simulateAll, hfalse, noRows, simulateRows] at h1
  · intro hnan cat fl ops fuel responses h1 h2 h3 h4
    have : noStoppingRule cat.checkRules = true := by
      simp [noStoppingRule, h1, h2, h3, h4, hnan.1, hnan.2.1, hnan.2.2.1, hnan.2.2.2]
    simp [Cat.simulateAll, this]
  · intro hne cat fl ops fuel responses hcat
    have hfalse : noStoppingRule cat.checkRules = false := by
      rw [hcat]
      cases h : noStoppingRule rules with
      | false => rfl
      | true => exact absurd (hguard.mp h) hne
    simp [Cat.simulateAll, hfalse]

/-! ## `MLEEstimator::estimateTheta` -/

theorem sampleOps_first_difference :
    Dbl.gt (sampleOps.abs (sampleOps.sub (.fin 1) (.fin 0))) tolerance = true := by
  norm_num [Dbl.gt, Dbl.lt, sampleOps, tolerance]

theorem newtonLoop_d1LL_error (fl : FloatOps) (est : MLEEstimator) (n : Nat)
    (theta_hat_old theta_hat_new difference : Dbl) (e : Err)
    (hd : Dbl.gt difference tolerance = true) (h1 : est.d1LL theta_hat_old = .error e) :
    newtonLoop fl est (n + 1) theta_hat_old theta_hat_new difference = .error e := by
  rw [newtonLoop, if_pos hd, h1]

/-- C7: on an answer profile for which `d1LL` raises a domain error at theta = 0, the
value the Newton-Raphson iteration starts from, `estimateTheta` ends with that domain
error, not with the result of `d1LL_root()`. -/
theorem estimateTheta_first_iterate_error_escapes :
    saturatedMLE.d1LL (.fin 0) =
      .error (.domain_error "Theta value too extreme for numerical routines.") ∧
    saturatedMLE.d1LL_root = .ok (.fin 3) ∧
    saturatedMLE.estimateTheta sampleOps =
      .error (.domain_error "Theta value too extreme for numerical routines.") := by
  refine ⟨by rfl, by rfl, ?_⟩
  exact newtonLoop_d1LL_error sampleOps saturatedMLE 199 (.fin 0) (.fin 1) _
    (.domain_error "Theta value too extreme for numerical routines.")
    sampleOps_first_difference (by rfl)

/-! ## `estimateThetas`: guard and rows -/

theorem estimateThetasLoop_ok (ops : QuestionSetOps) (responses : DataFrame) (qs : QuestionSet)
    (theta : Nat → Dbl) :
    ∀ (n k : Nat) (cat : Cat) (thetas : List Dbl),
      cat.questionSet = stateAfterRows ops responses qs k →
      (∀ r, k ≤ r → r < k + n →
        cat.estimator.estimateTheta (rowState ops responses qs r) = .ok (theta r)) →
      estimateThetasLoop ops responses (List.range' k n) cat thetas =
        (.ok (thetas ++ (List.range' k n).map theta),
          { cat with questionSet := stateAfterRows ops responses qs (k + n) }) := by
  intro n
  induction n with
  | zero =>
    intro k cat thetas hq _
    simp [estimateThetasLoop, ← hq]
  | succ n ih =>
    intro k cat thetas hq hth
    have h0 := hth k (Nat.le_refl k) (by omega)
    simp only [List.range'_succ, estimateThetasLoop, Cat.estimateTheta, hq]
    have hst : ops.reset_answers_row responses k (stateAfterRows ops responses qs k) =
        rowState ops responses qs k := rfl
    rw [hst, h0]
    simp only []
    rw [ih (k + 1)
      { questionSet := rowState ops responses qs k, checkRules := cat.checkRules,
        estimator := cat.estimator, selector := cat.selector }
      (thetas ++ [theta k]) rfl (fun r h1 h2 => hth r (by omega) (by omega))]
    simp [Nat.add_assoc, Nat.add_comm 1 n]

/-- C11: `estimateThetas` fails with the domain error of its guard and leaves the
`Cat` as it was, whatever the estimator and the mutators are, if and only if the
column count of the table differs from the number of questions. Otherwise, when
`estimateTheta()` returns in the state reset to each row, it returns one estimate per
row, in the order of the rows, entry `r` being `estimateTheta()` in the state just
reset to row `r`. -/
theorem estimateThetas_guard_and_rows (responses : DataFrame) (n : Nat) :
    ((∀ (cat : Cat) (ops : QuestionSetOps), cat.questionSet.question_names.length = n →
        cat.estimateThetas ops responses = (.error estimateThetasGuardErr, cat)) ↔
      responses.ncol ≠ n) ∧
    (responses.ncol = n → ∀ (cat : Cat) (ops : QuestionSetOps) (theta : Nat → Dbl),
      cat.questionSet.question_names.length = n →
      (∀ r, r < responses.nrow →
        cat.estimator.estimateTheta (rowState ops responses cat.questionSet r) =
          .ok (theta r)) →
      (cat.estimateThetas ops responses).1 = .ok ((List.range responses.nrow).map theta) ∧
      ((List.range responses.nrow).map theta).length = responses.nrow) := by
  have hbody : responses.ncol = n → ∀ (cat : Cat) (ops : QuestionSetOps) (theta : Nat → Dbl),
      cat.questionSet.question_names.length = n →
      (∀ r, r < responses.nrow →
        cat.estimator.estimateTheta (rowState ops responses cat.questionSet r) =
          .ok (theta r)) →
      (cat.estimateThetas ops responses).1 = .ok ((List.range responses.nrow).map theta) := by
    intro hn cat ops theta hlen hth
    have hg : (responses.ncol != cat.questionSet.question_names.length) = false := by
      simp [hn, hlen]
    unfold Cat.estimateThetas
    rw [hg]
    simp only [Bool.false_eq_true, if_false, List.range_eq_range']
    rw [estimateThetasLoop_ok ops responses cat.questionSet theta responses.nrow 0 cat [] rfl
      (fun r _ h2 => hth r (by omega))]
    simp
  refine ⟨⟨?_, ?_⟩, ?_⟩
  · intro hall hn
    have h1 := hall
      ⟨{ twoOpen with question_names := List.replicate n "q" }, noRules,
        constEstimator .nan .nan .nan .nan, firstSelector⟩ specOps (by simp)
    have h2 := hbody hn
      ⟨{ twoOpen with question_names := List.replicate n "q" }, noRules,
        constEstimator .nan .nan .nan .nan, firstSelector⟩ specOps (fun _ => .nan) (by simp)
      (fun _ _ => rfl)
    rw [h1] at h2
    cases h2
  · intro hne cat ops hlen
    have hg : (responses.ncol != cat.questionSet.question_names.length) = true := by
      simp [hlen, hne]
    unfold Cat.estimateThetas
    rw [hg]
    rfl
  · intro hn cat ops theta hlen hth
    exact ⟨hbody hn cat ops theta hlen hth, by simp⟩

/-! ## `obsInf` and the factories -/

/-- C12: `obsInf(theta, item)` fails with the domain error of its guard, whatever the
estimator is, if and only if `applicable_rows` is empty; when an item is answered the
guard does not fire and the outcome is exactly the estimator's `obsInf(theta, item)`
for the same arguments. -/
theorem obsInf_guard_iff (qs : QuestionSet) (theta : Dbl) (item : Int) :
    (qs.applicable_rows = [] ↔
      ∀ cat : Cat, cat.questionSet = qs → cat.obsInf theta item = .error obsInfGuardErr) ∧
    (qs.applicable_rows ≠ [] → ∀ cat : Cat, cat.questionSet = qs →
      cat.obsInf theta item = cat.estimator.obsInf qs theta item) := by
  have hbody : qs.applicable_rows ≠ [] → ∀ cat : Cat, cat.questionSet = qs →
      cat.obsInf theta item = cat.estimator.obsInf qs theta item := by
    intro hne cat hcat
    subst hcat
    have : cat.questionSet.applicable_rows.isEmpty = false := by
      cases h : cat.questionSet.applicable_rows with
      | nil => exact absurd h hne
      | cons a l => rfl
    unfold Cat.obsInf
    simp only [this, Bool.false_eq_true, if_false]
  refine ⟨⟨?_, ?_⟩, hbody⟩
  · intro hemp cat hcat
    subst hcat
    unfold Cat.obsInf
    simp [hemp]
  · intro hall
    by_contra hne
    have h1 := hall ⟨qs, noRules, constEstimator .nan .nan .nan .nan, firstSelector⟩ rfl
    have h2 := hbody hne ⟨qs, noRules, constEstimator .nan .nan .nan .nan, firstSelector⟩ rfl
    rw [h2] at h1
    simp [constEstimator] at h1

/-- The fallback is needed: no item is answered, or all answers are extreme. -/
theorem needsFallback_iff (qs : QuestionSet) :
    (qs.applicable_rows.length == 0 || qs.all_extreme) = true ↔
      (qs.applicable_rows = [] ∨ qs.all_extreme = true) := by
  simp [List.length_eq_zero]

/-- C13: the decision table of `createEstimator`. "EAP" gives EAP and "MAP" gives MAP
whatever the answers are; MLE (resp. WLE) is constructed exactly when the type is
"MLE" (resp. "WLE"), an item is answered and `all_extreme` is false; "MLE" or "WLE"
with no answered item or with `all_extreme` gives the estimator `estimationDefault`
names, MAP or EAP; and the construction fails exactly in the other cases: a type
that is none of the four, or a needed fallback whose `estimationDefault` is neither
"MAP" nor "EAP". -/
theorem createEstimator_decision_table (estimation_type estimation_default : String)
    (qs : QuestionSet) :
    (estimation_type = "EAP" →
      createEstimator estimation_type estimation_default qs = .ok .EAP) ∧
    (estimation_type = "MAP" →
      createEstimator estimation_type estimation_default qs = .ok .MAP) ∧
    (createEstimator estimation_type estimation_default qs = .ok .MLE ↔
      estimation_type = "MLE" ∧ qs.applicable_rows ≠ [] ∧ qs.all_extreme = false) ∧
    (createEstimator estimation_type estimation_default qs = .ok .WLE ↔
      estimation_type = "WLE" ∧ qs.applicable_rows ≠ [] ∧ qs.all_extreme = false) ∧
    ((estimation_type = "MLE" ∨ estimation_type = "WLE") →
      (qs.applicable_rows = [] ∨ qs.all_extreme = true) →
      (estimation_default = "MAP" →
        createEstimator estimation_type estimation_default qs = .ok .MAP) ∧
      (estimation_default = "EAP" →
        createEstimator estimation_type estimation_default qs = .ok .EAP)) ∧
    ((∃ e, createEstimator estimation_type estimation_default qs = .error e) ↔
      (estimation_type ≠ "EAP" ∧ estimation_type ≠ "MAP" ∧ estimation_type ≠ "MLE" ∧
        estimation_type ≠ "WLE") ∨
      ((estimation_type = "MLE" ∨ estimation_type = "WLE") ∧
        (qs.applicable_rows = [] ∨ qs.all_extreme = true) ∧
        estimation_default ≠ "MAP" ∧ estimation_default ≠ "EAP")) := by
  have hfb := needsFallback_iff qs
  by_cases hfall : (qs.applicable_rows.length == 0 || qs.all_extreme) = true
  · have hor := hfb.mp hfall
    have hnot : ¬ (qs.applicable_rows ≠ [] ∧ qs.all_extreme = false) := by
      rintro ⟨h1, h2⟩
      rcases hor with h | h
      · exact h1 h
      · rw [h2] at h; cases h
    by_cases h1 : estimation_type = "EAP"
    · subst h1; simp [createEstimator]
    by_cases h2 : estimation_type = "MAP"
    · subst h2; simp [createEstimator]
    by_cases h3 : estimation_type = "MLE"
    · subst h3
      by_cases d1 : estimation_default = "MAP"
      · subst d1; simp [createEstimator, hfall, hor, hnot]
      by_cases d2 : estimation_default = "EAP"
      · subst d2; simp [createEstimator, hfall, hor, hnot]
      simp [createEstimator, hfall, hor, hnot, d1, d2]
    by_cases h4 : estimation_type = "WLE"
    · subst h4
      by_cases d1 : estimation_default = "MAP"
      · subst d1; simp [createEstimator, hfall, hor, hnot]
      by_cases d2 : estimation_default = "EAP"
      · subst d2; simp [createEstimator, hfall, hor, hnot]
      simp [createEstimator, hfall, hor, hnot, d1, d2]
    simp [createEstimator, h1, h2, h3, h4]
  · have hnor : ¬ (qs.applicable_rows = [] ∨ qs.all_extreme = true) := fun h => hfall (hfb.mpr h)
    have hyes : qs.applicable_rows ≠ [] ∧ qs.all_extreme = false := by
      constructor
      · exact fun h => hnor (Or.inl h)
      · cases h : qs.all_extreme with
        | false => rfl
        | true => exact absurd (Or.inr h) hnor
    by_cases h1 : estimation_type = "EAP"
    · subst h1; simp [createEstimator]
    by_cases h2 : estimation_type = "MAP"
    · subst h2; simp [createEstimator]
    by_cases h3 : estimation_type = "MLE"
    · subst h3; simp [createEstimator, hfall, hnor, hyes]
    by_cases h4 : estimation_type = "WLE"
    · subst h4; simp [createEstimator, hfall, hnor, hyes]
    simp [createEstimator, h1, h2, h3, h4]

/-- C14: `createSelector` succeeds if and only if the selection string is, letter for
letter, one of the ten names EPV, MFI, MEI, MPWI, MLWI, KL, LKL, PKL, MFII, RANDOM,
and it then yields the variant of that name; every other string (a name in lower case
among them) fails with the error of the final `stop`. -/
theorem createSelector_iff (selection_type : String) :
    (∀ v : SelectorVariant, createSelector selection_type = .ok v ↔ selection_type = v.name) ∧
    ((∃ v, createSelector selection_type = .ok v) ↔
      selection_type ∈ ["EPV", "MFI", "MEI", "MPWI", "MLWI", "KL", "LKL", "PKL", "MFII",
        "RANDOM"]) ∧
    (selection_type ∉ ["EPV", "MFI", "MEI", "MPWI", "MLWI", "KL", "LKL", "PKL", "MFII",
        "RANDOM"] →
      createSelector selection_type = .error (createSelectorErr selection_type)) ∧
    createSelector "epv" = .error (createSelectorErr "epv") := by
  have hname : ∀ v : SelectorVariant, createSelector v.name = .ok v := by
    intro v; cases v <;> rfl
  have hok : ∀ v : SelectorVariant, createSelector selection_type = .ok v →
      selection_type = v.name := by
    intro v h
    unfold createSelector at h
    repeat' split at h
    all_goals first
      | (injection h with h; subst h; simp_all [SelectorVariant.name])
      | cases h
  have hmem : ∀ v : SelectorVariant, v.name ∈ ["EPV", "MFI", "MEI", "MPWI", "MLWI", "KL",
      "LKL", "PKL", "MFII", "RANDOM"] := by
    intro v; cases v <;> simp [SelectorVariant.name]
  have hfail : selection_type ∉ ["EPV", "MFI", "MEI", "MPWI", "MLWI", "KL", "LKL", "PKL",
      "MFII", "RANDOM"] →
      createSelector selection_type = .error (createSelectorErr selection_type) := by
    intro h
    simp only [List.mem_cons, List.mem_singleton, List.not_mem_nil, or_false, not_or] at h
    simp [createSelector, h]
  refine ⟨fun v => ⟨hok v, fun h => h ▸ hname v⟩, ⟨?_, ?_⟩, hfail, by rfl⟩
  · rintro ⟨v, hv⟩
    rw [hok v hv]
    exact hmem v
  · intro h
    simp only [List.mem_cons, List.mem_singleton, List.not_mem_nil, or_false] at h
    rcases h with h | h | h | h | h | h | h | h | h | h
    · exact ⟨.EPV, h ▸ rfl⟩
    · exact ⟨.MFI, h ▸ rfl⟩
    · exact ⟨.MEI, h ▸ rfl⟩
    · exact ⟨.MPWI, h ▸ rfl⟩
    · exact ⟨.MLWI, h ▸ rfl⟩
    · exact ⟨.KL, h ▸ rfl⟩
    · exact ⟨.LKL, h ▸ rfl⟩
    · exact ⟨.PKL, h ▸ rfl⟩
    · exact ⟨.MFII, h ▸ rfl⟩
    · exact ⟨.RANDOM, h ▸ rfl⟩

/-! ## `checkStopRules`: single rules -/

/-- C15: with `lengthThreshold` configured and the other five rules unset, a
`checkStopRules` whose two opening estimator calls return yields exactly the
comparison `applicable_rows.size() >= lengthThreshold`: true if and only if the
number of answered items is at least the threshold. -/
theorem checkStopRules_length_only (fl : FloatOps) (cat : Cat) (SE_est theta_est : Dbl)
    (hSE : cat.estimator.estimateSE cat.questionSet = .ok SE_est)
    (hTheta : cat.estimator.estimateTheta cat.questionSet = .ok theta_est)
    (hlen : cat.checkRules.lengthThreshold.isnan = false)
    (hse : cat.checkRules.seThreshold.isnan = true)
    (hinfo : cat.checkRules.infoThreshold.isnan = true)
    (hgain : cat.checkRules.gainThreshold.isnan = true)
    (hlo : cat.checkRules.lengthOverride.isnan = true)
    (hgo : cat.checkRules.gainOverride.isnan = true) :
    cat.checkStopRules fl =
      .ok [Dbl.ge (Dbl.ofNat cat.questionSet.applicable_rows.length)
        cat.checkRules.lengthThreshold] := by
  simp [Cat.checkStopRules, hSE, hTheta, stepLengthThreshold, stepLengthOverride,
    stepSeThreshold, stepGainThreshold, stepGainOverride, stepInfoThreshold, stopGate,
    hlen, hse, hinfo, hgain, hlo, hgo]

theorem checkStopRules_length_only_witness :
    Dbl.ge (Dbl.ofNat lengthFiveCat.questionSet.applicable_rows.length)
      lengthFiveCat.checkRules.lengthThreshold = true ∧
    lengthFiveCat.checkStopRules sampleOps =
      .ok [Dbl.ge (Dbl.ofNat lengthFiveCat.questionSet.applicable_rows.length)
        lengthFiveCat.checkRules.lengthThreshold] :=
  ⟨by decide,
    checkStopRules_length_only sampleOps lengthFiveCat (.fin 2) (.fin 0) rfl rfl
      (by decide) (by decide) (by decide) (by decide) (by decide) (by decide)⟩

theorem stepGainOverride_extends (fl : FloatOps) (cat : Cat) (SE_est : Dbl)
    (acc out : List Bool) (h : stepGainOverride fl cat SE_est acc = .ok out) :
    ∃ rest, out = acc ++ rest := by
  unfold stepGainOverride at h
  split at h
  · split at h
    · cases h
    · rename_i l _
      injection h with h
      exact ⟨_, h.symm⟩
  · injection h with h
    exact ⟨[], by simp [h]⟩

theorem stopGate_override_met (all_thresholds rest : List Bool) :
    stopGate all_thresholds (true :: rest) = [false] := by
  simp [stopGate]

/-- C16: when `lengthOverride` is configured and the number of answered items is
strictly below it, every value `checkStopRules` returns is `false`, whatever the other
five rules are and whatever they evaluate to; and it does return `false` whenever the
estimator's calls return. -/
theorem checkStopRules_lengthOverride_blocks (fl : FloatOps) (cat : Cat)
    (hconf : cat.checkRules.lengthOverride.isnan = false)
    (hlt : Dbl.lt (Dbl.ofNat cat.questionSet.applicable_rows.length)
      cat.checkRules.lengthOverride = true) :
    (∀ stop, cat.checkStopRules fl = .ok stop → stop = [false]) ∧
    (∀ r, cat.reads r → cat.checkStopRules fl = .ok [false]) := by
  have hfirst : ∀ stop, cat.checkStopRules fl = .ok stop → stop = [false] := by
    intro stop h
    unfold Cat.checkStopRules at h
    split at h
    · cases h
    · split at h
      · cases h
      · simp only [] at h
        split at h
        · cases h
        · split at h
          · cases h
          · rename_i all_overrides hO
            split at h
            · cases h
            · injection h with h
              obtain ⟨rest, hrest⟩ := stepGainOverride_extends _ _ _ _ _ hO
              have hlo : stepLengthOverride cat [] = [true] := by
                simp [stepLengthOverride, hconf, hlt]
              rw [hlo] at hrest
              rw [← h, hrest]
              exact stopGate_override_met _ _
  refine ⟨hfirst, ?_⟩
  intro r hr
  have h := checkStopRules_reads fl cat r hr
  rw [h, hfirst _ h]

theorem checkStopRules_lengthOverride_blocks_witness :
    overrideCat.questionSet.applicable_rows.length = 3 ∧
    overrideCat.checkRules.lengthOverride = .fin 10 ∧
    overrideCat.checkRules.lengthThreshold = .fin 5 ∧
    overrideCat.reads (constReadings (.fin 2) (.fin 0) (.fin 1) (.fin 1)) ∧
    overrideCat.checkStopRules sampleOps = .ok [false] :=
  ⟨by rfl, by rfl, by rfl, ⟨rfl, rfl, fun _ _ => rfl, fun _ _ => rfl⟩,
    (checkStopRules_lengthOverride_blocks sampleOps overrideCat (by decide) (by decide)).2
      (constReadings (.fin 2) (.fin 0) (.fin 1) (.fin 1))
      ⟨rfl, rfl, fun _ _ => rfl, fun _ _ => rfl⟩⟩

/-- C17: when the estimator's calls return, the boolean the `infoThreshold` block
pushes is true if and only if `fisherInf(theta_est, item) < infoThreshold` for every
item of `nonapplicable_rows`, and the boolean the `gainThreshold` block pushes is true
if and only if `abs(SE_est - pow(expectedPV(item), 0.5)) < gainThreshold` for every
item of `nonapplicable_rows`; the comparisons are strict, and both booleans are true
when no item is unanswered. -/
theorem perItem_rules_universal (fl : FloatOps) (cat : Cat) (r : Readings)
    (h : cat.reads r) (acc : List Bool) :
    (cat.checkRules.infoThreshold.isnan = false →
      ∃ answer_infoThreshold,
        stepInfoThreshold cat r.theta_est acc = .ok (acc ++ [answer_infoThreshold]) ∧
        (answer_infoThreshold = true ↔
          ∀ item ∈ cat.questionSet.nonapplicable_rows,
            Dbl.lt (r.info item) cat.checkRules.infoThreshold = true) ∧
        (cat.questionSet.nonapplicable_rows = [] → answer_infoThreshold = true)) ∧
    (cat.checkRules.gainThreshold.isnan = false →
      ∃ answer_gainThreshold,
        stepGainThreshold fl cat r.SE_est acc = .ok (acc ++ [answer_gainThreshold]) ∧
        (answer_gainThreshold = true ↔
          ∀ item ∈ cat.questionSet.nonapplicable_rows,
            Dbl.lt (fl.abs (fl.sub r.SE_est (fl.pow (r.epv item) (.fin (1 / 2)))))
              cat.checkRules.gainThreshold = true) ∧
        (cat.questionSet.nonapplicable_rows = [] → answer_gainThreshold = true)) := by
  constructor
  · intro hc
    refine ⟨_, ?_, List.all_eq_true, ?_⟩
    · rw [stepInfoThreshold_reads cat r h acc]
      simp [hc]
    · intro hemp
      simp [hemp]
  · intro hc
    refine ⟨_, ?_, List.all_eq_true, ?_⟩
    · rw [stepGainThreshold_reads fl cat r h acc]
      simp only [hc, Bool.not_false, if_true]
      rfl
    · intro hemp
      simp [hemp]

theorem perItem_rules_universal_witness :
    perItemCat.reads (constReadings (.fin 2) (.fin 0) (.fin 1) (.fin 1)) ∧
    ((perItemCat.checkRules.infoThreshold.isnan = false →
      ∃ answer_infoThreshold,
        stepInfoThreshold perItemCat (constReadings (.fin 2) (.fin 0) (.fin 1) (.fin 1)).theta_est
          [] = .ok ([] ++ [answer_infoThreshold]) ∧
        (answer_infoThreshold = true ↔
          ∀ item ∈ perItemCat.questionSet.nonapplicable_rows,
            Dbl.lt ((constReadings (.fin 2) (.fin 0) (.fin 1) (.fin 1)).info item)
              perItemCat.checkRules.infoThreshold = true) ∧
        (perItemCat.questionSet.nonapplicable_rows = [] → answer_infoThreshold = true)) ∧
    (perItemCat.checkRules.gainThreshold.isnan = false →
      ∃ answer_gainThreshold,
        stepGainThreshold sampleOps perItemCat
          (constReadings (.fin 2) (.fin 0) (.fin 1) (.fin 1)).SE_est [] =
            .ok ([] ++ [answer_gainThreshold]) ∧
        (answer_gainThreshold = true ↔
          ∀ item ∈ perItemCat.questionSet.nonapplicable_rows,
            Dbl.lt (sampleOps.abs (sampleOps.sub
              (constReadings (.fin 2) (.fin 0) (.fin 1) (.fin 1)).SE_est
              (sampleOps.pow ((constReadings (.fin 2) (.fin 0) (.fin 1) (.fin 1)).epv item)
                (.fin (1 / 2)))))
              perItemCat.checkRules.gainThreshold = true) ∧
        (perItemCat.questionSet.nonapplicable_rows = [] → answer_gainThreshold = true))) :=
  ⟨⟨rfl, rfl, fun _ _ => rfl, fun _ _ => rfl⟩,
    perItem_rules_universal sampleOps perItemCat
      (constReadings (.fin 2) (.fin 0) (.fin 1) (.fin 1))
      ⟨rfl, rfl, fun _ _ => rfl, fun _ _ => rfl⟩ []⟩

/-! ## `selectItem` and `lookAhead`: the tables returned -/

/-- C18: with at least one unanswered item and a selector that returns, `selectItem`
returns the selector's table with every question index shifted by one (same order,
names, values and criterion name) and `next_item` equal to the chosen index plus one
(indices are taken as integers, far from the bounds of `int`). So when the selector's
table lists exactly the items of `nonapplicable_rows` without duplicates and its
chosen index is one of them, the returned table lists exactly the indices `i + 1` for
`i` in `nonapplicable_rows` without duplicates and `next_item - 1` is in
`nonapplicable_rows`. -/
theorem selectItem_publishes_shifted (cat : Cat) (selection : Selection)
    (hne : cat.questionSet.nonapplicable_rows ≠ [])
    (hsel : cat.selector.selectItem cat.questionSet = .ok selection) :
    ∃ out, cat.selectItem = .ok out ∧
      out.estimates.q_number = selection.questions.map (fun q => q + 1) ∧
      out.estimates.q_name = selection.question_names ∧
      out.estimates.value_name = selection.name ∧
      out.estimates.values = selection.values ∧
      out.next_item = selection.item + 1 ∧
      (selection.questions.Nodup →
        (∀ i, i ∈ selection.questions ↔ i ∈ cat.questionSet.nonapplicable_rows) →
        selection.item ∈ cat.questionSet.nonapplicable_rows →
        out.estimates.q_number.Nodup ∧
        (∀ j, j ∈ out.estimates.q_number ↔
          ∃ i ∈ cat.questionSet.nonapplicable_rows, j = i + 1) ∧
        out.next_item - 1 ∈ cat.questionSet.nonapplicable_rows) := by
  have hemp : cat.questionSet.nonapplicable_rows.isEmpty = false := by
    cases h : cat.questionSet.nonapplicable_rows with
    | nil => exact absurd h hne
    | cons a l => rfl
  refine ⟨publishSelection selection, ?_, rfl, rfl, rfl, rfl, rfl, ?_⟩
  · unfold Cat.selectItem
    simp only [hemp, Bool.false_eq_true, if_false, hsel]
  · intro hnd hcover hitem
    refine ⟨?_, ?_, ?_⟩
    · exact hnd.map (fun a b h => by simpa using h)
    · intro j
      simp only [publishSelection, List.mem_map]
      constructor
      · rintro ⟨i, hi, rfl⟩
        exact ⟨i, (hcover i).mp hi, rfl⟩
      · rintro ⟨i, hi, rfl⟩
        exact ⟨i, (hcover i).mpr hi, rfl⟩
    · simpa [publishSelection] using hitem

theorem selectItem_publishes_shifted_witness :
    twoOpenCat.questionSet.nonapplicable_rows ≠ [] ∧
    ∃ out, twoOpenCat.selectItem = .ok out ∧
      out.estimates.q_number = [0, 1].map (fun q => q + 1) ∧
      out.estimates.q_name = ["q", "q"] ∧
      out.estimates.value_name = "FIRST" ∧
      out.estimates.values = [.fin 0, .fin 0] ∧
      out.next_item = 0 + 1 ∧
      (([0, 1] : List Int).Nodup →
        (∀ i, i ∈ ([0, 1] : List Int) ↔ i ∈ twoOpenCat.questionSet.nonapplicable_rows) →
        (0 : Int) ∈ twoOpenCat.questionSet.nonapplicable_rows →
        out.estimates.q_number.Nodup ∧
        (∀ j, j ∈ out.estimates.q_number ↔
          ∃ i ∈ twoOpenCat.questionSet.nonapplicable_rows, j = i + 1) ∧
        out.next_item - 1 ∈ twoOpenCat.questionSet.nonapplicable_rows) :=
  ⟨by decide,
    selectItem_publishes_shifted twoOpenCat
      { questions := [0, 1], question_names := ["q", "q"], values := [.fin 0, .fin 0],
        name := "FIRST", item := 0 }
      (by decide) (by rfl)⟩

theorem vecAt_set_self {α : Type} (v : List α) (i : Int) (x : α)
    (h : 0 ≤ i ∧ i.toNat < v.length) : vecAt (v.set i.toNat x) i = .ok x := by
  unfold vecAt
  rw [if_pos h.1]
  have : (v.set i.toNat x).get? i.toNat = some x := by
    simp [List.get?_eq_getElem?, List.getElem?_set, h.2]
  rw [this]

theorem lookAheadLoop_ok (sel : Selector) (item : Int) (qs : QuestionSet) (s : Nat → Selection)
    (hin : 0 ≤ item ∧ item.toNat < qs.answers.length) :
    ∀ (ns : List Nat) (a items ros : List Int),
      (∀ x, a.set item.toNat x = qs.answers.set item.toNat x) →
      a.length = qs.answers.length →
      (∀ i ∈ ns, sel.selectItem
        { qs with answers := qs.answers.set item.toNat (responseOption qs.model i) } =
          .ok (s i)) →
      (lookAheadLoop sel item ns { qs with answers := a } items ros).1 =
        .ok (items ++ ns.map (fun i => (s i).item + 1),
          ros ++ ns.map (responseOption qs.model)) := by
  intro ns
  induction ns with
  | nil => intro a items ros _ _ _; simp [lookAheadLoop]
  | cons i rest ih =>
    intro a items ros hset hlen hsel
    have hin2 : 0 ≤ item ∧ item.toNat < a.length := ⟨hin.1, hlen ▸ hin.2⟩
    have h1 : vecSetAt a item (responseOption qs.model i) =
        .ok (qs.answers.set item.toNat (responseOption qs.model i)) := by
      unfold vecSetAt
      rw [if_pos hin2, hset]
    have h2 := hsel i (List.mem_cons_self _ _)
    have h3 := vecAt_set_self qs.answers item (responseOption qs.model i) hin
    unfold lookAheadLoop
    simp only [h1, h2, h3]
    rw [ih (qs.answers.set item.toNat (responseOption qs.model i)) _ _
      (fun x => by simp [List.set_set]) (by simp)
      (fun j hj => hsel j (List.mem_cons_of_mem _ hj))]
    simp

/-- C19: for an item that passes the guard, whose difficulty vector `d` has `m`
entries and whose answer slot exists, and a selector that returns in each of the
`m + 1` hypothetical states, `lookAhead` returns a table of `m + 1` rows: the column
`response_option` is `0, 1, .., m` for the binary models and `1, 2, .., m + 1`
otherwise, and row `r` of `next_item` is one plus the item the selector chooses in
the state where the item is marked answered with the response option of row `r`. -/
theorem lookAhead_table (cat : Cat) (item : Int) (d : List Dbl) (s : Nat → Selection)
    (hg : cat.questionSet.applicable_rows.contains item = false)
    (hd : vecAt cat.questionSet.difficulty item = .ok d)
    (hin : 0 ≤ item ∧ item.toNat < cat.questionSet.answers.length)
    (hsel : ∀ i ∈ List.range' 1 (d.length + 1),
      cat.selector.selectItem (scoringState cat.questionSet item i) = .ok (s i)) :
    (cat.lookAhead item).1 =
      .ok { response_option :=
              (List.range' 1 (d.length + 1)).map (responseOption cat.questionSet.model)
            next_item := (List.range' 1 (d.length + 1)).map (fun i => (s i).item + 1) } ∧
    ((List.range' 1 (d.length + 1)).map (responseOption cat.questionSet.model)).length =
      d.length + 1 ∧
    ((List.range' 1 (d.length + 1)).map (fun i => (s i).item + 1)).length = d.length + 1 ∧
    (isBinaryModel cat.questionSet.model = true →
      (List.range' 1 (d.length + 1)).map (responseOption cat.questionSet.model) =
        (List.range (d.length + 1)).map Int.ofNat) ∧
    (isBinaryModel cat.questionSet.model = false →
      (List.range' 1 (d.length + 1)).map (responseOption cat.questionSet.model) =
        (List.range' 1 (d.length + 1)).map Int.ofNat) := by
  refine ⟨?_, by simp, by simp, ?_, ?_⟩
  · have hloop := lookAheadLoop_ok cat.selector item (markAnswered cat.questionSet item) s hin
      (List.range' 1 (d.length + 1)) cat.questionSet.answers [] [] (fun _ => rfl) rfl hsel
    obtain ⟨a, hst, hor⟩ := lookAheadLoop_state cat.selector item (List.range' 1 (d.length + 1))
      (markAnswered cat.questionSet item) [] []
    have hlen : a.length = cat.questionSet.answers.length := length_of_state hor
    unfold Cat.lookAhead
    simp only [hg, Bool.false_eq_true, if_false]
    have hd2 : vecAt (markAnswered cat.questionSet item).difficulty item = .ok d := hd
    rw [hd2]
    simp only []
    have hsame : ({ markAnswered cat.questionSet item with answers := cat.questionSet.answers } :
        QuestionSet) = markAnswered cat.questionSet item := rfl
    rw [hsame] at hloop
    cases hl : lookAheadLoop cat.selector item (List.range' 1 (d.length + 1))
        (markAnswered cat.questionSet item) [] [] with
    | mk res qs2 =>
      rw [hl] at hloop hst
      have hres : res = .ok ([] ++ (List.range' 1 (d.length + 1)).map (fun i => (s i).item + 1),
          [] ++ (List.range' 1 (d.length + 1)).map
            (responseOption (markAnswered cat.questionSet item).model)) := hloop
      have hqs2 : qs2 = { markAnswered cat.questionSet item with answers := a } := hst
      subst hres
      subst hqs2
      have hv : vecSetAt a item NA_INTEGER = .ok (a.set item.toNat NA_INTEGER) := by
        unfold vecSetAt
        rw [if_pos ⟨hin.1, hlen ▸ hin.2⟩]
      simp only [hv, List.nil_append]
      rfl
  · intro hb
    rw [List.range_eq_range']
    apply List.ext_getElem
    · simp
    · intro n h1 h2
      simp [responseOption, hb, List.getElem_range']
  · intro hb
    apply List.map_congr_left
    intro i _
    simp [responseOption, hb]

theorem lookAhead_table_witness :
    twoOpenCat.questionSet.applicable_rows.contains 0 = false ∧
    vecAt twoOpenCat.questionSet.difficulty 0 = .ok [.fin (-1), .fin 1] ∧
    (twoOpenCat.lookAhead 0).1 =
      .ok { response_option :=
              (List.range' 1 (([.fin (-1), .fin 1] : List Dbl).length + 1)).map
                (responseOption twoOpenCat.questionSet.model)
            next_item := (List.range' 1 (([.fin (-1), .fin 1] : List Dbl).length + 1)).map
              (fun _ => (1 : Int) + 1) } :=
  ⟨by decide, by rfl,
    (lookAhead_table twoOpenCat 0 [.fin (-1), .fin 1]
      (fun _ => { questions := [1], question_names := ["q"], values := [.fin 0],
                  name := "FIRST", item := 1 })
      (by decide) (by rfl) (by decide) (fun _ _ => rfl)).1⟩

/-! ## `MLEEstimator::estimateTheta`: the count of updates -/

theorem newtonIterate_shift (fl : FloatOps) (d1LL d2LL : Dbl → Dbl) (start : Dbl) :
    ∀ j, newtonIterate fl d1LL d2LL start (j + 1) =
      newtonIterate fl d1LL d2LL (newtonStep fl d1LL d2LL start) j := by
  intro j
  induction j with
  | zero => rfl
  | succ j ih =>
    show newtonStep fl d1LL d2LL (newtonIterate fl d1LL d2LL start (j + 1)) = _
    rw [ih]
    rfl

theorem newtonDifference_shift (fl : FloatOps) (d1LL d2LL : Dbl → Dbl) (start : Dbl)
    (j : Nat) (hj : 1 ≤ j) :
    newtonDifference fl d1LL d2LL start (j + 1) =
      newtonDifference fl d1LL d2LL (newtonStep fl d1LL d2LL start) j := by
  obtain ⟨i, rfl⟩ : ∃ i, j = i + 1 := ⟨j - 1, by omega⟩
  unfold newtonDifference
  simp only [Nat.add_sub_cancel]
  rw [newtonIterate_shift fl d1LL d2LL start (i + 1), newtonIterate_shift fl d1LL d2LL start i]

theorem le_not_gt (a b : Dbl) (h : Dbl.le a b = true) : Dbl.gt a b = false := by
  cases a <;> cases b <;> simp_all [Dbl.le, Dbl.gt, Dbl.lt]

/-- What a run of the loop that starts with `difference > tolerance` does, for total
derivatives: it makes `k` updates, between one and the number of turns left. -/
theorem newtonLoop_run (fl : FloatOps) (d1LL d2LL : Dbl → Dbl) (root : Except Err Dbl) :
    ∀ (n : Nat) (theta_hat_old theta_hat_new difference : Dbl),
      Dbl.gt difference tolerance = true →
      ∃ k, 1 ≤ k ∧ k ≤ n + 1 ∧
        (∀ j, 1 ≤ j → j < k →
          (newtonIterate fl d1LL d2LL theta_hat_old j).isnan = false ∧
          Dbl.gt (newtonDifference fl d1LL d2LL theta_hat_old j) tolerance = true) ∧
        (((newtonIterate fl d1LL d2LL theta_hat_old k).isnan = true ∧
            newtonLoop fl (totalMLE d1LL d2LL root) (n + 1) theta_hat_old theta_hat_new
              difference = root) ∨
          ((newtonIterate fl d1LL d2LL theta_hat_old k).isnan = false ∧
            (Dbl.gt (newtonDifference fl d1LL d2LL theta_hat_old k) tolerance = false ∨
              k = n + 1) ∧
            newtonLoop fl (totalMLE d1LL d2LL root) (n + 1) theta_hat_old theta_hat_new
              difference = .ok (newtonIterate fl d1LL d2LL theta_hat_old k))) := by
  intro n
  induction n with
  | zero =>
    intro old new diff hgt
    refine ⟨1, Nat.le_refl 1, Nat.le_refl 1, fun j h1 h2 => by omega, ?_⟩
    cases hnan : (newtonIterate fl d1LL d2LL old 1).isnan with
    | true =>
      left
      refine ⟨rfl, ?_⟩
      rw [newtonLoop, if_pos hgt]
      simp only [totalMLE]
      have : (fl.sub old (fl.div (d1LL old) (d2LL old))).isnan = true := hnan
      rw [if_pos this]
    | false =>
      right
      refine ⟨rfl, Or.inr rfl, ?_⟩
      rw [newtonLoop, if_pos hgt]
      simp only [totalMLE]
      have : (fl.sub old (fl.div (d1LL old) (d2LL old))).isnan = false := hnan
      rw [this]
      simp only [Bool.false_eq_true, if_false, newtonLoop]
      rfl
  | succ n ih =>
    intro old new diff hgt
    cases hnan : (newtonIterate fl d1LL d2LL old 1).isnan with
    | true =>
      refine ⟨1, Nat.le_refl 1, by omega, fun j h1 h2 => by omega, Or.inl ⟨hnan, ?_⟩⟩
      rw [newtonLoop, if_pos hgt]
      simp only [totalMLE]
      have : (fl.sub old (fl.div (d1LL old) (d2LL old))).isnan = true := hnan
      rw [if_pos this]
    | false =>
      have hnan2 : (fl.sub old (fl.div (d1LL old) (d2LL old))).isnan = false := hnan
      have hunfold : newtonLoop fl (totalMLE d1LL d2LL root) (n + 1 + 1) old new diff =
          newtonLoop fl (totalMLE d1LL d2LL root) (n + 1) (newtonStep fl d1LL d2LL old)
            (newtonStep fl d1LL d2LL old) (newtonDifference fl d1LL d2LL old 1) := by
        rw [newtonLoop, if_pos hgt]
        simp only [totalMLE]
        rw [hnan2]
        simp only [Bool.false_eq_true, if_false]
        rfl
      cases hgt1 : Dbl.gt (newtonDifference fl d1LL d2LL old 1) tolerance with
      | false =>
        refine ⟨1, Nat.le_refl 1, by omega, fun j h1 h2 => by omega,
          Or.inr ⟨hnan, Or.inl hgt1, ?_⟩⟩
        rw [hunfold, newtonLoop, hgt1]
        simp only [Bool.false_eq_true, if_false]
        rfl
      | true =>
        obtain ⟨k, hk1, hk2, hbefore, hend⟩ := ih (newtonStep fl d1LL d2LL old)
          (newtonStep fl d1LL d2LL old) (newtonDifference fl d1LL d2LL old 1) hgt1
        refine ⟨k + 1, by omega, by omega, ?_, ?_⟩
        · intro j hj1 hj2
          by_cases hj : j = 1
          · subst hj
            exact ⟨hnan, hgt1⟩
          · obtain ⟨i, rfl⟩ : ∃ i, j = i + 1 := ⟨j - 1, by omega⟩
            have hi := hbefore i (by omega) (by omega)
            rw [newtonIterate_shift, newtonDifference_shift _ _ _ _ _ (by omega)]
            exact hi
        · rw [hunfold, newtonIterate_shift, newtonDifference_shift _ _ _ _ _ hk1]
          rcases hend with ⟨h1, h2⟩ | ⟨h1, h2, h3⟩
          · exact Or.inl ⟨h1, h2⟩
          · refine Or.inr ⟨h1, ?_, h3⟩
            rcases h2 with h2 | h2
            · exact Or.inl h2
            · exact Or.inr (by omega)

/-- C20: for total derivative functions, on a platform where `abs(1.0 - 0.0)` is
`1.0`, the loop of `estimateTheta` makes `k` updates
`theta_new = theta_old - d1LL(theta_old) / d2LL(theta_old)` with `1 <= k <= 200`, the
first from `theta_old = 0.0`. It goes on only while the iterate is a number and
`difference > tolerance`, so it has stopped at the first update whose difference is
at most the tolerance. It ends either in the fallback (the iterate is NaN; the result
is the one of `d1LL_root()`) or by returning the last iterate, which it does also
after 200 updates that did not reach the tolerance. -/
theorem estimateTheta_update_count (fl : FloatOps) (d1LL d2LL : Dbl → Dbl)
    (root : Except Err Dbl)
    (hsub : fl.sub (.fin 1) (.fin 0) = .fin 1) (habs : fl.abs (.fin 1) = .fin 1) :
    ∃ k, 1 ≤ k ∧ k ≤ 200 ∧
      (∀ j, 1 ≤ j → j < k →
        (newtonIterate fl d1LL d2LL (.fin 0) j).isnan = false ∧
        Dbl.gt (newtonDifference fl d1LL d2LL (.fin 0) j) tolerance = true) ∧
      (∀ j, 1 ≤ j →
        Dbl.le (newtonDifference fl d1LL d2LL (.fin 0) j) tolerance = true → k ≤ j) ∧
      (((newtonIterate fl d1LL d2LL (.fin 0) k).isnan = true ∧
          (totalMLE d1LL d2LL root).estimateTheta fl = root) ∨
        ((newtonIterate fl d1LL d2LL (.fin 0) k).isnan = false ∧
          (Dbl.gt (newtonDifference fl d1LL d2LL (.fin 0) k) tolerance = false ∨ k = 200) ∧
          (totalMLE d1LL d2LL root).estimateTheta fl =
            .ok (newtonIterate fl d1LL d2LL (.fin 0) k))) := by
  have hstart : Dbl.gt (fl.abs (fl.sub (.fin 1) (.fin 0))) tolerance = true := by
    rw [hsub, habs]
    norm_num [Dbl.gt, Dbl.lt, tolerance]
  obtain ⟨k, hk1, hk2, hbefore, hend⟩ :=
    newtonLoop_run fl d1LL d2LL root 199 (.fin 0) (.fin 1) _ hstart
  refine ⟨k, hk1, hk2, hbefore, ?_, hend⟩
  intro j hj hle
  by_contra hlt
  have h1 := (hbefore j hj (by omega)).2
  rw [le_not_gt _ _ hle] at h1
  cases h1

theorem sampleOps_one_minus_zero :
    sampleOps.sub (.fin 1) (.fin 0) = .fin 1 ∧ sampleOps.abs (.fin 1) = .fin 1 := by
  constructor <;> norm_num [sampleOps]

theorem estimateTheta_update_count_witness :
    sampleOps.sub (.fin 1) (.fin 0) = .fin 1 ∧ sampleOps.abs (.fin 1) = .fin 1 ∧
    ∃ k, 1 ≤ k ∧ k ≤ 200 ∧
      (∀ j, 1 ≤ j → j < k →
        (newtonIterate sampleOps quadraticD1 quadraticD2 (.fin 0) j).isnan = false ∧
        Dbl.gt (newtonDifference sampleOps quadraticD1 quadraticD2 (.fin 0) j) tolerance =
          true) ∧
      (∀ j, 1 ≤ j →
        Dbl.le (newtonDifference sampleOps quadraticD1 quadraticD2 (.fin 0) j) tolerance =
          true → k ≤ j) ∧
      (((newtonIterate sampleOps quadraticD1 quadraticD2 (.fin 0) k).isnan = true ∧
          (totalMLE quadraticD1 quadraticD2 (.ok (.fin 3))).estimateTheta sampleOps =
            .ok (.fin 3)) ∨
        ((newtonIterate sampleOps quadraticD1 quadraticD2 (.fin 0) k).isnan = false ∧
          (Dbl.gt (newtonDifference sampleOps quadraticD1 quadraticD2 (.fin 0) k) tolerance =
            false ∨ k = 200) ∧
          (totalMLE quadraticD1 quadraticD2 (.ok (.fin 3))).estimateTheta sampleOps =
            .ok (newtonIterate sampleOps quadraticD1 quadraticD2 (.fin 0) k))) :=
  ⟨sampleOps_one_minus_zero.1, sampleOps_one_minus_zero.2,
    estimateTheta_update_count sampleOps quadraticD1 quadraticD2 (.ok (.fin 3))
      sampleOps_one_minus_zero.1 sampleOps_one_minus_zero.2⟩

/-! ## `MLEEstimator::estimateTheta`: the NaN fallback -/

theorem newtonLoop_not_nan (fl : FloatOps) (est : MLEEstimator) :
    ∀ (n : Nat) (theta_hat_old theta_hat_new difference v : Dbl),
      theta_hat_new.isnan = false →
      newtonLoop fl est n theta_hat_old theta_hat_new difference = .ok v →
      v.isnan = false ∨ est.d1LL_root = .ok v := by
  intro n
  induction n with
  | zero =>
    intro old new diff v hnew h
    simp only [newtonLoop, Except.ok.injEq] at h
    exact Or.inl (h ▸ hnew)
  | succ n ih =>
    intro old new diff v hnew h
    rw [newtonLoop] at h
    split at h
    · split at h
      · cases h
      · split at h
        · cases h
        · simp only [] at h
          split at h
          · exact Or.inr h
          · cases h
          · split at h
            · exact Or.inr h
            · rename_i hnan
              exact ih _ _ _ v (by simpa using hnan) h
    · simp only [Except.ok.injEq] at h
      exact Or.inl (h ▸ hnew)

/-- C21: in one turn of the loop of `estimateTheta`, when the update
`theta_old - d1LL(theta_old) / d2LL(theta_old)` is NaN the loop is left in that turn:
the outcome of `estimateTheta` from there is the one of `d1LL_root()` when the probe
`d1LL(theta_new)` returns or throws a domain error, and the probe's exception when it
throws another one. Hence every value `estimateTheta` returns is a number or the
value `d1LL_root()` returned: it never returns a NaN Newton iterate. -/
theorem estimateTheta_nan_iterate_falls_back (fl : FloatOps) (est : MLEEstimator) :
    (∀ (n : Nat) (theta_hat_old theta_hat_new difference d1 d2 : Dbl),
      Dbl.gt difference tolerance = true →
      est.d1LL theta_hat_old = .ok d1 → est.d2LL theta_hat_old = .ok d2 →
      (fl.sub theta_hat_old (fl.div d1 d2)).isnan = true →
      ((∀ x, est.d1LL (fl.sub theta_hat_old (fl.div d1 d2)) = .ok x →
          newtonLoop fl est (n + 1) theta_hat_old theta_hat_new difference = est.d1LL_root) ∧
        (∀ what, est.d1LL (fl.sub theta_hat_old (fl.div d1 d2)) = .error (.domain_error what) →
          newtonLoop fl est (n + 1) theta_hat_old theta_hat_new difference = est.d1LL_root) ∧
        (∀ e, est.d1LL (fl.sub theta_hat_old (fl.div d1 d2)) = .error e →
          (∀ what, e ≠ .domain_error what) →
          newtonLoop fl est (n + 1) theta_hat_old theta_hat_new difference = .error e))) ∧
    (∀ v, est.estimateTheta fl = .ok v → v.isnan = false ∨ est.d1LL_root = .ok v) := by
  constructor
  · intro n old new diff d1 d2 hgt h1 h2 hnan
    refine ⟨?_, ?_, ?_⟩
    · intro x hx
      rw [newtonLoop, if_pos hgt, h1, h2]
      simp only [hx, hnan, if_true]
    · intro what hx
      rw [newtonLoop, if_pos hgt, h1, h2]
      simp only [hx]
    · intro e hx hne
      rw [newtonLoop, if_pos hgt, h1, h2]
      cases e with
      | domain_error what => exact absurd rfl (hne what)
      | _ => simp only [hx]
  · intro v h
    exact newtonLoop_not_nan fl est max_iter (.fin 0) (.fin 1) _ v rfl h

theorem estimateTheta_nan_iterate_falls_back_witness :
    (sampleOps.sub (.fin 0) (sampleOps.div (.fin 1) (.fin 0))).isnan = true ∧
    newtonLoop sampleOps flatMLE (199 + 1) (.fin 0) (.fin 1)
      (sampleOps.abs (sampleOps.sub (.fin 1) (.fin 0))) = flatMLE.d1LL_root ∧
    flatMLE.estimateTheta sampleOps = .ok (.fin 3) :=
  have hnan : (sampleOps.sub (.fin 0) (sampleOps.div (.fin 1) (.fin 0))).isnan = true := by
    simp [sampleOps, Dbl.isnan]
  have hrun := ((estimateTheta_nan_iterate_falls_back sampleOps flatMLE).1 199 (.fin 0) (.fin 1)
    (sampleOps.abs (sampleOps.sub (.fin 1) (.fin 0))) (.fin 1) (.fin 0)
    sampleOps_first_difference rfl rfl hnan).1 (.fin 1) rfl
  ⟨hnan, hrun, hrun⟩

/-! ## `lookAhead`: the exact frame -/

theorem eraseRemove_split (item : Int) :
    ∀ (l : List Int), l.count item = 1 →
      ∃ pre post, l = pre ++ item :: post ∧ item ∉ pre ∧ item ∉ post ∧
        eraseRemove l item = pre ++ post := by
  intro l
  induction l with
  | nil => intro h; simp at h
  | cons a l ih =>
    intro h
    by_cases ha : a = item
    · subst ha
      have hc : l.count a = 0 := by
        simpa [List.count_cons] using h
      have hnot : a ∉ l := List.count_eq_zero.mp hc
      refine ⟨[], l, rfl, by simp, hnot, ?_⟩
      simp only [eraseRemove, List.nil_append]
      rw [List.filter_cons_of_neg (by simp)]
      exact List.filter_eq_self.mpr (fun x hx => by
        have : x ≠ a := fun h => hnot (h ▸ hx)
        simpa using this)
    · have hc : l.count item = 1 := by
        simpa [List.count_cons, ha] using h
      obtain ⟨pre, post, hl, hpre, hpost, her⟩ := ih hc
      refine ⟨a :: pre, post, by rw [hl]; rfl, ?_, hpost, ?_⟩
      · simp only [List.mem_cons, not_or]
        exact ⟨fun h => ha h.symm, hpre⟩
      · simp only [eraseRemove] at her ⊢
        rw [List.filter_cons_of_pos (by simpa using ha), her]
        rfl

/-- C22: when `item` is not among the answered rows and occurs exactly once in
`nonapplicable_rows`, a `lookAhead(item)` that returns normally leaves
`applicable_rows` identical; leaves the answers vector as it was except at `item`,
where it now holds the sentinel; and leaves `nonapplicable_rows` as the original
sequence with `item` taken out and appended at the end: the same indices, the others
in their original order. -/
theorem lookAhead_exact_frame (cat : Cat) (item : Int) (out : LookAheadResult)
    (hg : cat.questionSet.applicable_rows.contains item = false)
    (honce : cat.questionSet.nonapplicable_rows.count item = 1)
    (hret : (cat.lookAhead item).1 = .ok out) :
    (cat.lookAhead item).2.questionSet.applicable_rows = cat.questionSet.applicable_rows ∧
    (cat.lookAhead item).2.questionSet.answers =
      cat.questionSet.answers.set item.toNat NA_INTEGER ∧
    (∀ j : Nat, j ≠ item.toNat →
      (cat.lookAhead item).2.questionSet.answers.get? j = cat.questionSet.answers.get? j) ∧
    vecAt (cat.lookAhead item).2.questionSet.answers item = .ok NA_INTEGER ∧
    (∃ pre post, cat.questionSet.nonapplicable_rows = pre ++ item :: post ∧
      item ∉ pre ∧ item ∉ post ∧
      (cat.lookAhead item).2.questionSet.nonapplicable_rows = pre ++ post ++ [item]) ∧
    (cat.lookAhead item).2.questionSet.nonapplicable_rows.Perm
      cat.questionSet.nonapplicable_rows := by
  rcases lookAhead_outcomes cat item hg with ⟨e, _, h⟩ | ⟨d, e, a, _, _, h⟩ | ⟨d, o, _, h0, h1, h⟩
  · rw [h] at hret; cases hret
  · rw [h] at hret; cases hret
  · rw [h]
    obtain ⟨pre, post, hl, hpre, hpost, her⟩ := eraseRemove_split item _ honce
    refine ⟨by simp [popBack], rfl, ?_, ?_, ⟨pre, post, hl, hpre, hpost, ?_⟩, ?_⟩
    · intro j hj
      simp only [List.get?_eq_getElem?]
      rw [List.getElem?_set_ne (Ne.symm hj)]
    · exact vecAt_set_self _ _ _ ⟨h0, h1⟩
    · show eraseRemove cat.questionSet.nonapplicable_rows item ++ [item] = _
      rw [her]
    · show (eraseRemove cat.questionSet.nonapplicable_rows item ++ [item]).Perm _
      rw [her, hl]
      simp only [List.append_assoc]
      exact List.Perm.append_left pre (List.perm_append_singleton item post)

theorem lookAhead_exact_frame_witness :
    twoOpenCat.questionSet.applicable_rows.contains 0 = false ∧
    twoOpenCat.questionSet.nonapplicable_rows.count 0 = 1 ∧
    (twoOpenCat.lookAhead 0).1 = .ok { response_option := [1, 2, 3], next_item := [2, 2, 2] } ∧
    (twoOpenCat.lookAhead 0).2.questionSet.applicable_rows =
      twoOpenCat.questionSet.applicable_rows ∧
    (twoOpenCat.lookAhead 0).2.questionSet.answers =
      twoOpenCat.questionSet.answers.set (0 : Int).toNat NA_INTEGER :=
  have h := lookAhead_exact_frame twoOpenCat 0
    { response_option := [1, 2, 3], next_item := [2, 2, 2] } (by decide) (by decide) (by rfl)
  ⟨by decide, by decide, by rfl, h.1, h.2.1⟩

/-! ## `checkStopRules`: the vacuous `gainOverride` -/

theorem forItems_nil (f : Int → Except Err Bool) (acc : List Bool) :
    forItems f [] acc = .ok acc := rfl

/-- C23: when `nonapplicable_rows` is empty and `gainOverride` is configured, the
`gainOverride` block pushes `true` (the `all_of` over no item), so every value
`checkStopRules` returns is `false`, whatever the four thresholds and `lengthOverride`
are and however many thresholds are met; and it does return `false` as soon as the two
opening estimator calls return. -/
theorem checkStopRules_no_item_gainOverride (fl : FloatOps) (cat : Cat)
    (hemp : cat.questionSet.nonapplicable_rows = [])
    (hconf : cat.checkRules.gainOverride.isnan = false) :
    (∀ SE_est acc, stepGainOverride fl cat SE_est acc = .ok (acc ++ [true])) ∧
    (∀ stop, cat.checkStopRules fl = .ok stop → stop = [false]) ∧
    (∀ SE_est theta_est, cat.estimator.estimateSE cat.questionSet = .ok SE_est →
      cat.estimator.estimateTheta cat.questionSet = .ok theta_est →
      cat.checkStopRules fl = .ok [false]) := by
  have hblock : ∀ SE_est acc, stepGainOverride fl cat SE_est acc = .ok (acc ++ [true]) := by
    intro SE_est acc
    simp [stepGainOverride, hconf, hemp, forItems]
  have hgate : ∀ T acc, stopGate T (acc ++ [true]) = [false] := by
    intro T acc
    simp [stopGate]
  have hfirst : ∀ stop, cat.checkStopRules fl = .ok stop → stop = [false] := by
    intro stop h
    unfold Cat.checkStopRules at h
    split at h
    · cases h
    · split at h
      · cases h
      · simp only [] at h
        split at h
        · cases h
        · rw [hblock] at h
          simp only [] at h
          split at h
          · cases h
          · injection h with h
            rw [← h]
            exact hgate _ _
  refine ⟨hblock, hfirst, ?_⟩
  intro SE_est theta_est hSE hTheta
  have hreads : cat.reads ⟨SE_est, theta_est, fun _ => .nan, fun _ => .nan⟩ :=
    ⟨hSE, hTheta, by simp [hemp], by simp [hemp]⟩
  have h := checkStopRules_reads fl cat _ hreads
  rw [h, hfirst _ h]

theorem checkStopRules_no_item_gainOverride_witness :
    allAnsweredCat.questionSet.nonapplicable_rows = [] ∧
    lengthThresholdMet allAnsweredCat ∧
    allAnsweredCat.checkStopRules sampleOps = .ok [false] :=
  ⟨by rfl, ⟨by decide, by decide⟩,
    (checkStopRules_no_item_gainOverride sampleOps allAnsweredCat (by rfl) (by decide)).2.2
      (.fin 2) (.fin 0) rfl rfl⟩

/-! ## The score function of `d1LL_root` -/

theorem uncheckedAt_ok_iff {α : Type} (v : List α) (i : Int) :
    (∃ x, uncheckedAt v i = .ok x) ↔ 0 ≤ i ∧ i < (v.length : Int) := by
  unfold uncheckedAt
  by_cases hi : 0 ≤ i
  · rw [if_pos hi]
    cases hg : v.get? i.toNat with
    | none =>
      have hlen : v.length ≤ i.toNat := by
        simpa [List.get?_eq_getElem?] using hg
      constructor
      · rintro ⟨x, hx⟩; cases hx
      · rintro ⟨_, h2⟩; omega
    | some x =>
      have hlen : i.toNat < v.length := by
        have := List.get?_eq_some.mp hg
        exact this.1
      exact ⟨fun _ => ⟨hi, by omega⟩, fun _ => ⟨x, rfl⟩⟩
  · rw [if_neg hi]
    constructor
    · rintro ⟨x, hx⟩; cases hx
    · rintro ⟨h1, _⟩; exact absurd h1 hi

/-- C25: the score function reads `probs[k]` and `probs[k - 1]` for the response code
`k` of an answered item; for a probability vector of length `n` both reads are inside
the vector exactly when `1 <= k <= n - 1`. That is so for every answer `k` in `1..K`
of a graded item, whose vector has length `K + 1`, and for no `k` at all (0 and 1
among them) when the vector has length one, as for the binary models. -/
theorem scoreReads_valid_iff (probs : List Dbl) (answer_k : Int) :
    ((∃ p, scoreReads probs answer_k = .ok p) ↔
      1 ≤ answer_k ∧ answer_k ≤ (probs.length : Int) - 1) ∧
    (∀ K : Nat, probs.length = K + 1 → 1 ≤ answer_k → answer_k ≤ (K : Int) →
      ∃ p, scoreReads probs answer_k = .ok p) ∧
    (probs.length = 1 → ∀ k : Int, ∃ e, scoreReads probs k = .error e) ∧
    (probs.length = 1 →
      ∀ (fl : FloatOps) (inp : ScoreInputs) (questionSet : QuestionSet) (theta : Dbl)
        (question : Int) (rest : List Int),
        questionSet.applicable_rows = question :: rest →
        uncheckedAt questionSet.answers question = .ok answer_k →
        inp.probability theta question = .ok probs →
        ∃ e, d1LL_fctn fl inp questionSet theta = .error e) := by
  have hiff : ∀ k : Int, (∃ p, scoreReads probs k = .ok p) ↔
      1 ≤ k ∧ k ≤ (probs.length : Int) - 1 := by
    intro k
    have h1 := uncheckedAt_ok_iff probs k
    have h2 := uncheckedAt_ok_iff probs (k - 1)
    unfold scoreReads
    cases ha : uncheckedAt probs k with
    | error e =>
      rw [ha] at h1
      constructor
      · rintro ⟨p, hp⟩; cases hp
      · intro h
        have : ∃ x, (Except.error e : Except Err Dbl) = .ok x := h1.mpr ⟨by omega, by omega⟩
        obtain ⟨x, hx⟩ := this
        cases hx
    | ok P1 =>
      rw [ha] at h1
      have hk := h1.mp ⟨P1, rfl⟩
      cases hb : uncheckedAt probs (k - 1) with
      | error e =>
        rw [hb] at h2
        constructor
        · rintro ⟨p, hp⟩; cases hp
        · intro h
          have : ∃ x, (Except.error e : Except Err Dbl) = .ok x := h2.mpr ⟨by omega, by omega⟩
          obtain ⟨x, hx⟩ := this
          cases hx
      | ok P2 =>
        rw [hb] at h2
        have hk2 := h2.mp ⟨P2, rfl⟩
        exact ⟨fun _ => ⟨by omega, by omega⟩, fun _ => ⟨(P1, P2), rfl⟩⟩
  have hbin : probs.length = 1 → ∀ k : Int, ∃ e, scoreReads probs k = .error e := by
    intro hone k
    cases hs : scoreReads probs k with
    | error e => exact ⟨e, rfl⟩
    | ok p =>
      have := (hiff k).mp ⟨p, hs⟩
      rw [hone] at this
      omega
  refine ⟨hiff answer_k, ?_, hbin, ?_⟩
  · intro K hK h1 h2
    exact (hiff answer_k).mpr ⟨h1, by rw [hK]; push_cast; omega⟩
  · intro hone fl inp questionSet theta question rest hrows hans hprob
    obtain ⟨e, he⟩ := hbin hone answer_k
    refine ⟨e, ?_⟩
    unfold d1LL_fctn
    rw [hrows]
    unfold d1LL_fctn_loop
    simp only [hans, hprob, he]

/-! ## `simulateAll`: the `while` loop terminates -/

theorem scoreValue_of_exactAt (fl : FloatOps) (a P1 P2 : ℚ) (hne : P1 ≠ P2)
    (hex : ExactAt fl a P1 P2) :
    scoreValue fl (.fin a) (.fin P1) (.fin P2) = .fin (-a * (1 - P1 - P2)) := by
  obtain ⟨h1, h2, h3, h4, h5, h6, h7, h8, h9⟩ := hex
  have hP : P1 - P2 ≠ 0 := sub_ne_zero.mpr hne
  simp only [scoreValue, h1, h2, h3, h4, h5, h6, h7, h8, h9]
  congr 1
  field_simp
  ring

theorem d1LL_fctn_loop_of_exact (fl : FloatOps) (inp : ScoreInputs)
    (answers : List Int) (theta : Dbl) (a P1 P2 : Int → ℚ) :
    ∀ (rows : List Int) (acc : ℚ),
      (∀ q ∈ rows, ScoreReadsAs inp answers theta q (a q) (P1 q) (P2 q) ∧
        ExactAt fl (a q) (P1 q) (P2 q)) →
      AddsExactly fl acc (rows.map (fun q => -a q * (1 - P1 q - P2 q))) →
      d1LL_fctn_loop fl inp answers theta rows (.fin acc) =
        .ok (.fin (acc + (rows.map (fun q => -a q * (1 - P1 q - P2 q))).sum)) := by
  intro rows
  induction rows with
  | nil => intro acc _ _; simp [d1LL_fctn_loop]
  | cons q rest ih =>
    intro acc h hadd
    obtain ⟨⟨k, probs, h1, h2, h3, h4, hne⟩, hex⟩ := h q (List.mem_cons_self _ _)
    obtain ⟨hadd1, hadd2⟩ := hadd
    unfold d1LL_fctn_loop
    simp only [h1, h2, h3, h4]
    rw [scoreValue_of_exactAt fl _ _ _ hne hex, hadd1]
    rw [ih _ (fun q' hq' => h q' (List.mem_cons_of_mem _ hq')) hadd2]
    simp [add_assoc]

/-- C26 (amended): for an answered question with finite boundary probabilities
`P1 = probs[k]` and `P2 = probs[k - 1]`, `P1` different from `P2`, the term
`-1 * a * ((P1 * (1 - P1) - P2 * (1 - P2)) / (P1 - P2))` that `d1LL_fctn` adds equals
`-a * (1 - P1 - P2)` when none of the operations of the expression rounds at these
operands; hence, when every answered question is read so and none of the additions
to `l_theta` rounds either, the function handed to the root finder returns the sum
over `applicable_rows` of `-a * (1 - P1 - P2)`. -/
theorem d1LL_fctn_closed_form_when_exact (fl : FloatOps) :
    (∀ a P1 P2 : ℚ, P1 ≠ P2 → ExactAt fl a P1 P2 →
      scoreValue fl (.fin a) (.fin P1) (.fin P2) = .fin (-a * (1 - P1 - P2))) ∧
    (∀ (inp : ScoreInputs) (questionSet : QuestionSet) (theta : Dbl) (a P1 P2 : Int → ℚ),
      (∀ q ∈ questionSet.applicable_rows,
        ScoreReadsAs inp questionSet.answers theta q (a q) (P1 q) (P2 q) ∧
        ExactAt fl (a q) (P1 q) (P2 q)) →
      AddsExactly fl 0
        (questionSet.applicable_rows.map (fun q => -a q * (1 - P1 q - P2 q))) →
      d1LL_fctn fl inp questionSet theta =
        .ok (.fin ((questionSet.applicable_rows.map
          (fun q => -a q * (1 - P1 q - P2 q))).sum))) := by
  constructor
  · intro a P1 P2 hne hex
    exact scoreValue_of_exactAt fl a P1 P2 hne hex
  · intro inp questionSet theta a P1 P2 h hadd
    unfold d1LL_fctn
    rw [d1LL_fctn_loop_of_exact fl inp _ theta a P1 P2 _ 0 h hadd]
    simp

theorem quarter_half_ne : (mkRat 1 2 : ℚ) ≠ mkRat 1 4 := by decide

set_option maxRecDepth 100000 in
theorem roundedOps_exactAt_dyadic : ExactAt roundedOps 2 (mkRat 1 2) (mkRat 1 4) := by
  have e1 : (1 : ℚ) - mkRat 1 2 = mkRat 1 2 := by norm_num [Rat.mkRat_eq_div]
  have e2 : (1 : ℚ) - mkRat 1 4 = mkRat 3 4 := by norm_num [Rat.mkRat_eq_div]
  have e3 : (mkRat 1 2 : ℚ) - mkRat 1 4 = mkRat 1 4 := by norm_num [Rat.mkRat_eq_div]
  have e4 : (mkRat 1 4 : ℚ) * mkRat 3 4 = mkRat 3 16 := by norm_num [Rat.mkRat_eq_div]
  have e5 : (mkRat 1 2 : ℚ) * mkRat 1 2 = mkRat 1 4 := by norm_num [Rat.mkRat_eq_div]
  have e6 : (mkRat 1 4 : ℚ) - mkRat 3 16 = mkRat 1 16 := by norm_num [Rat.mkRat_eq_div]
  have e7 : (mkRat 1 16 : ℚ) / mkRat 1 4 = mkRat 1 4 := by norm_num [Rat.mkRat_eq_div]
  have e8 : (-1 : ℚ) * 2 = mkRat (-2) 1 := by norm_num [Rat.mkRat_eq_div]
  have e9 : (mkRat (-2) 1 : ℚ) * mkRat 1 4 = mkRat (-1) 2 := by norm_num [Rat.mkRat_eq_div]
  unfold ExactAt
  simp only [e1, e2, e3, e4, e5, e6, e7, e8, e9]
  decide

set_option maxRecDepth 100000 in
theorem d1LL_fctn_closed_form_when_exact_witness :
    (mkRat 1 2 : ℚ) ≠ mkRat 1 4 ∧ ExactAt roundedOps 2 (mkRat 1 2) (mkRat 1 4) ∧
    scoreValue roundedOps (.fin 2) (.fin (mkRat 1 2)) (.fin (mkRat 1 4)) =
      .fin (-2 * (1 - mkRat 1 2 - mkRat 1 4)) ∧
    d1LL_fctn roundedOps dyadicInputs twoOpen (.fin 0) =
      .ok (.fin ((twoOpen.applicable_rows.map
        (fun _ => -(2 : ℚ) * (1 - mkRat 1 2 - mkRat 1 4))).sum)) :=
  ⟨quarter_half_ne, roundedOps_exactAt_dyadic,
    (d1LL_fctn_closed_form_when_exact roundedOps).1 2 (mkRat 1 2) (mkRat 1 4)
      quarter_half_ne roundedOps_exactAt_dyadic,
    (d1LL_fctn_closed_form_when_exact roundedOps).2 dyadicInputs twoOpen (.fin 0)
      (fun _ => 2) (fun _ => mkRat 1 2) (fun _ => mkRat 1 4)
      (by
        intro q hq
        have hq2 : q = 2 := by simpa [twoOpen] using hq
        subst hq2
        exact ⟨⟨2, [.fin 0, .fin (mkRat 1 4), .fin (mkRat 1 2), .fin 1], rfl, rfl, rfl, rfl,
          quarter_half_ne⟩, roundedOps_exactAt_dyadic⟩)
      (by
        have e : (0 : ℚ) + -2 * (1 - mkRat 1 2 - mkRat 1 4) = mkRat (-1) 2 := by
          norm_num [Rat.mkRat_eq_div]
        have e0 : (-2 : ℚ) * (1 - mkRat 1 2 - mkRat 1 4) = mkRat (-1) 2 := by
          norm_num [Rat.mkRat_eq_div]
        refine ⟨?_, trivial⟩
        show roundedOps.add (.fin 0) (.fin (-2 * (1 - mkRat 1 2 - mkRat 1 4))) =
          .fin (0 + -2 * (1 - mkRat 1 2 - mkRat 1 4))
        rw [e, e0]
        decide)⟩

set_option maxRecDepth 100000 in
/-- Counterexample to C26 as stated: in double arithmetic, with `a = 1`,
`P1 = 0.30000000000000004` and `P2 = 0.3` (adjacent doubles), the term the code
computes is `-0.5`, while `-a * (1 - P1 - P2)` is the double `-0.39999999999999997`
when evaluated in doubles and differs from `-1/2` as an exact number too; and
`d1LL_fctn` returns `-0.5` for the one answered question. -/
theorem scoreValue_rounds_away_from_closed_form :
    dblThreeTenthsUp ≠ dblThreeTenths ∧
    scoreValue roundedOps (.fin 1) (.fin dblThreeTenthsUp) (.fin dblThreeTenths) =
      .fin (mkRat (-1) 2) ∧
    roundedOps.mul (.fin (-1))
        (roundedOps.sub (roundedOps.sub (.fin 1) (.fin dblThreeTenthsUp)) (.fin dblThreeTenths)) =
      .fin (mkRat (-7205759403792793) 18014398509481984) ∧
    -(1 : ℚ) * (1 - dblThreeTenthsUp - dblThreeTenths) ≠ mkRat (-1) 2 ∧
    d1LL_fctn roundedOps adjacentInputs twoOpen (.fin 0) = .ok (.fin (mkRat (-1) 2)) := by
  have hterm : roundedOps.add (.fin 0)
      (scoreValue roundedOps (.fin 1) (.fin dblThreeTenthsUp) (.fin dblThreeTenths)) =
      .fin (mkRat (-1) 2) := by decide
  refine ⟨by decide, by decide, by decide, ?_, ?_⟩
  · norm_num [dblThreeTenthsUp, dblThreeTenths, Rat.mkRat_eq_div]
  · show Except.ok (roundedOps.add (.fin 0)
      (scoreValue roundedOps (.fin 1) (.fin dblThreeTenthsUp) (.fin dblThreeTenths))) = _
    rw [hterm]

end CatSurv
